import Mathlib

set_option autoImplicit false

/-!
Shallow embedding of the CELMS equipment-lifecycle core.

The definitions below translate the PL/pgSQL stored procedures of
`src/functions_and_seed.sql` (identical copies live in the complete DB setup
script) together with the schema-level constraints of the `reservations`,
`loans` and `maintenance_tickets` tables (`reservations_no_overlap`,
`loans_no_overlap`, `uq_loans_reservation`) that fire on INSERT, and the
`trg_loans_after_update` trigger that fires inside `fn_return_loan`.

Modelling conventions:
* timestamps are integers (seconds); `tstzrange(s, e, '[)')` becomes the
  half-open interval `[lo, hi)`;
* UUID and BIGSERIAL identities are natural numbers; monetary NUMERIC is `ℚ`;
* each SQL function becomes a total Lean function returning `Except Err _`;
  a raised exception aborts the surrounding transaction, so an `.error`
  result carries no state: the database is left unchanged;
* JSON payloads of notifications and audit rows carry no business logic and
  are elided; a notification keeps its recipient and type tag, an audit event
  its actor, entity, entity id and action;
* `now()` is passed explicitly as a parameter (it is stable inside one
  transaction, so a single value per operation is faithful).
-/

namespace CELMS

/-- Reservation status, from the CHECK constraint on `reservations.status`. -/
inductive RStatus
  | pending
  | approved
  | denied
  | confirmed
  | cancelled
  | expired
deriving DecidableEq

/-- Equipment item status, from the CHECK constraint on `equipment_items.status`. -/
inductive IStatus
  | available
  | checkedOut
  | outOfService
  | retired
deriving DecidableEq

/-- Maintenance ticket severity, from the CHECK constraint on `maintenance_tickets.severity`. -/
inductive Severity
  | low
  | medium
  | high
  | critical
deriving DecidableEq

/-- Maintenance ticket status (`open` is written `tOpen`). -/
inductive TStatus
  | tOpen
  | inProgress
  | onHold
  | closed
deriving DecidableEq

/-- Notification type tag, from the CHECK constraint on `notifications.type`
(`return` is written `returned`). -/
inductive NType
  | reservation
  | loan
  | returned
  | penalty
  | maintenance
  | system
deriving DecidableEq

/-- A half-open time interval `[lo, hi)`; the Lean image of a `tstzrange`
value built with bounds `'[)'`. -/
structure Interval where
  lo : ℤ
  hi : ℤ
deriving DecidableEq

/-- PostgreSQL range overlap `a && b`: an empty range overlaps nothing, and
two nonempty half-open ranges overlap iff each starts before the other ends. -/
def overlaps (a b : Interval) : Prop :=
  a.lo < a.hi ∧ b.lo < b.hi ∧ a.lo < b.hi ∧ b.lo < a.hi

instance (a b : Interval) : Decidable (overlaps a b) := by
  unfold overlaps; infer_instance

/-- A row of `reservations`. -/
structure Reservation where
  rid : ℕ
  itemId : ℕ
  userId : ℕ
  period : Interval
  status : RStatus
  decidedBy : Option ℕ
  decisionReason : Option String
deriving DecidableEq

/-- A row of `loans`. -/
structure Loan where
  lid : ℕ
  itemId : ℕ
  userId : ℕ
  reservationId : Option ℕ
  checkoutAt : ℤ
  dueAt : ℤ
  returnAt : Option ℤ
  damaged : Bool
  returnCondition : Option String
deriving DecidableEq

/-- A row of `equipment_items` (only the identity and ledger status carry
business logic; tag, location and service dates are elided). -/
structure Item where
  iid : ℕ
  status : IStatus
deriving DecidableEq

/-- A row of `maintenance_tickets` (assignment and timestamps elided). -/
structure Ticket where
  itemId : ℕ
  loanId : Option ℕ
  openedBy : ℕ
  severity : Severity
  status : TStatus
  description : String
deriving DecidableEq

/-- A row of `penalties`. -/
structure Penalty where
  loanId : ℕ
  userId : ℕ
  amount : ℚ
  reason : String
deriving DecidableEq

/-- A row of `notifications` (recipient and type tag; JSON payload elided). -/
structure Notification where
  userId : ℕ
  ntype : NType
deriving DecidableEq

/-- A row of `audit_events` (detail payload elided). -/
structure AuditEvent where
  actor : ℕ
  entity : String
  entityId : ℕ
  action : String
deriving DecidableEq

/-- The `celms_settings` key-value table: the two keys the core reads. -/
structure Settings where
  defaultLoanDays : Option ℤ
  penaltyPerDay : Option ℚ
deriving DecidableEq

/-- The database state the lifecycle operations read and write.  `nextRid`
and `nextLid` model the BIGSERIAL sequences of `reservations` and `loans`. -/
structure State where
  reservations : List Reservation
  loans : List Loan
  items : List Item
  tickets : List Ticket
  penalties : List Penalty
  notifications : List Notification
  audits : List AuditEvent
  settings : Settings
  nextRid : ℕ
  nextLid : ℕ
deriving DecidableEq

/-- The typed errors raised by the stored procedures (each `RAISE EXCEPTION`
site), by the INSERT-time schema constraints, and by the deny route's
reason check. -/
inductive Err
  | invalidInterval
  | notFound
  | invalidState
  | overlap
  | exclusionViolation
  | uniqueViolation
  | itemCheckedOut
  | itemUnavailable
  | alreadyReturned
  | ownership
  | alreadyStarted
  | missingReason
deriving DecidableEq

/-- `fn_audit`: append one audit event. -/
def fn_audit (actor : ℕ) (entity : String) (entityId : ℕ) (action : String)
    (s : State) : State :=
  { s with audits := s.audits ++ [⟨actor, entity, entityId, action⟩] }

/-- `fn_create_notification`: append one notification row. -/
def fn_create_notification (uid : ℕ) (t : NType) (s : State) : State :=
  { s with notifications := s.notifications ++ [⟨uid, t⟩] }

/-- `SELECT ... FROM reservations WHERE reservation_id = _reservation_id`. -/
def findReservation (s : State) (rid : ℕ) : Option Reservation :=
  s.reservations.find? (fun x => decide (x.rid = rid))

/-- `SELECT ... FROM equipment_items WHERE item_id = _item_id`. -/
def findItem (s : State) (iid : ℕ) : Option Item :=
  s.items.find? (fun x => decide (x.iid = iid))

/-- `SELECT ... FROM loans WHERE loan_id = _loan_id`. -/
def findLoan (s : State) (lid : ℕ) : Option Loan :=
  s.loans.find? (fun x => decide (x.lid = lid))

/-- `fn_compute_penalty_amount(_due_at, _return_at)`: zero if returned on
time, else `CEIL(seconds late / 86400.0)` days times the per-day rate from
`celms_settings` (`COALESCE(per_day, 10)`). -/
def fn_compute_penalty_amount (st : Settings) (dueAt returnAt : ℤ) : ℚ :=
  if returnAt ≤ dueAt then 0
  else
    ((max 0 ⌈((returnAt - dueAt : ℤ) : ℚ) / 86400⌉ : ℤ) : ℚ) *
      st.penaltyPerDay.getD 10

/-- `fn_request_reservation`: reject `start >= end`, then INSERT a `pending`
row.  The INSERT is subject to the `reservations_no_overlap` exclusion
constraint `EXCLUDE USING gist (item_id WITH =, period WITH &&)`, which
rejects a period overlapping ANY existing reservation on the item,
regardless of status. -/
def fn_request_reservation (actor item : ℕ) (lo hi : ℤ) (s : State) :
    Except Err (ℕ × State) :=
  if lo < hi then
    if ∃ x ∈ s.reservations, x.itemId = item ∧ overlaps x.period ⟨lo, hi⟩ then
      .error .exclusionViolation
    else
      let rid := s.nextRid
      let r : Reservation := ⟨rid, item, actor, ⟨lo, hi⟩, .pending, none, none⟩
      let s1 : State :=
        { s with reservations := s.reservations ++ [r], nextRid := s.nextRid + 1 }
      let s2 : State := fn_audit actor "reservation" rid "request" s1
      .ok (rid, fn_create_notification actor .reservation s2)
  else .error .invalidInterval

/-- `fn_approve_reservation`: look up the reservation joined with its item,
require status in `{pending, approved, confirmed}`, require no OTHER
approved/confirmed reservation on the same item with an overlapping period,
then set status to `approved` recording decider and reason. -/
def fn_approve_reservation (approver rid : ℕ) (reason : Option String)
    (s : State) : Except Err State :=
  match findReservation s rid with
  | none => .error .notFound
  | some r =>
    match findItem s r.itemId with
    | none => .error .notFound
    | some _ =>
      if r.status = .pending ∨ r.status = .approved ∨ r.status = .confirmed then
        if ∃ x ∈ s.reservations, x.rid ≠ rid ∧
            (x.status = .approved ∨ x.status = .confirmed) ∧
            x.itemId = r.itemId ∧ overlaps x.period r.period then
          .error .overlap
        else
          let s1 : State := { s with reservations := s.reservations.map (fun x =>
            if x.rid = rid then
              { x with status := .approved, decidedBy := some approver,
                       decisionReason := reason }
            else x) }
          let s2 : State := fn_audit approver "reservation" rid "approve" s1
          .ok (fn_create_notification r.userId .reservation s2)
      else .error .invalidState

/-- `fn_deny_reservation`: look up the reservation joined with its item and
set status to `denied` recording decider and reason.  The function has no
status guard and no reason guard of its own. -/
def fn_deny_reservation (approver rid : ℕ) (reason : Option String)
    (s : State) : Except Err State :=
  match findReservation s rid with
  | none => .error .notFound
  | some r =>
    match findItem s r.itemId with
    | none => .error .notFound
    | some _ =>
      let s1 : State := { s with reservations := s.reservations.map (fun x =>
        if x.rid = rid then
          { x with status := .denied, decidedBy := some approver,
                   decisionReason := reason }
        else x) }
      let s2 : State := fn_audit approver "reservation" rid "deny" s1
      .ok (fn_create_notification r.userId .reservation s2)

/-- The deny operation as exposed by the API
(`routes/reservations.js`, `POST /:id/deny`): a missing or empty `reason`
is rejected with HTTP 400 before the database function is invoked. -/
def denyReservationApi (approver rid : ℕ) (reason : Option String)
    (s : State) : Except Err State :=
  match reason with
  | none => .error .missingReason
  | some t =>
    if t = "" then .error .missingReason
    else fn_deny_reservation approver rid (some t) s

/-- `fn_cancel_reservation`: owner-only, only before the period starts;
sets status to `cancelled`. -/
def fn_cancel_reservation (actor rid : ℕ) (now : ℤ) (s : State) :
    Except Err State :=
  match findReservation s rid with
  | none => .error .notFound
  | some r =>
    if r.userId ≠ actor then .error .ownership
    else if r.period.lo ≤ now then .error .alreadyStarted
    else
      let s1 : State := { s with reservations := s.reservations.map (fun x =>
        if x.rid = rid then { x with status := .cancelled } else x) }
      .ok (fn_audit actor "reservation" rid "cancel" s1)

/-- Whether an existing loan row blocks the `loans_no_overlap` exclusion
constraint against a fresh range `[now, infinity)` on the same item:
an open loan always does, a closed one iff its range `[checkout_at,
return_at)` is nonempty and ends after `now`. -/
def loanBlocksB (now : ℤ) (l : Loan) : Bool :=
  match l.returnAt with
  | none => true
  | some t => decide (l.checkoutAt < t) && decide (now < t)

/-- `fn_checkout_from_reservation`: require status `approved`/`confirmed`,
no open loan on the item, and the item `available`; then INSERT the loan
(due in `default_loan_days`, default 7), mark the reservation `confirmed`
and the item `checked_out`.  The INSERT is subject to the
`uq_loans_reservation` UNIQUE constraint on `loans.reservation_id` and to
the `loans_no_overlap` exclusion constraint (modelled in that order;
PostgreSQL checks both at INSERT time). -/
def fn_checkout_from_reservation (actor rid : ℕ) (now : ℤ) (s : State) :
    Except Err (ℕ × State) :=
  match findReservation s rid with
  | none => .error .notFound
  | some r =>
    if r.status = .approved ∨ r.status = .confirmed then
      if ∃ l ∈ s.loans, l.itemId = r.itemId ∧ l.returnAt = none then
        .error .itemCheckedOut
      else if ∃ i ∈ s.items, i.iid = r.itemId ∧ i.status = .available then
        if ∃ l ∈ s.loans, l.reservationId = some rid then
          .error .uniqueViolation
        else if ∃ l ∈ s.loans, l.itemId = r.itemId ∧ loanBlocksB now l = true then
          .error .exclusionViolation
        else
          let days := s.settings.defaultLoanDays.getD 7
          let due := now + 86400 * days
          let lid := s.nextLid
          let loan : Loan := ⟨lid, r.itemId, r.userId, some rid, now, due,
                              none, false, none⟩
          let s1 : State :=
            { s with loans := s.loans ++ [loan], nextLid := s.nextLid + 1 }
          let s2 : State := { s1 with reservations := s1.reservations.map (fun x =>
            if x.rid = rid then { x with status := .confirmed } else x) }
          let s3 : State := { s2 with items := s2.items.map (fun i =>
            if i.iid = r.itemId then { i with status := .checkedOut } else i) }
          let s4 : State := fn_audit actor "loan" lid "checkout_from_reservation" s3
          .ok (lid, fn_create_notification r.userId .loan s4)
      else .error .itemUnavailable
    else .error .invalidState

/-- `fn_checkout_adhoc`: same availability guards and effects, no
reservation link (`reservation_id` NULL, so `uq_loans_reservation` cannot
fire). -/
def fn_checkout_adhoc (actor user item : ℕ) (now : ℤ) (s : State) :
    Except Err (ℕ × State) :=
  if ∃ l ∈ s.loans, l.itemId = item ∧ l.returnAt = none then
    .error .itemCheckedOut
  else if ∃ i ∈ s.items, i.iid = item ∧ i.status = .available then
    if ∃ l ∈ s.loans, l.itemId = item ∧ loanBlocksB now l = true then
      .error .exclusionViolation
    else
      let days := s.settings.defaultLoanDays.getD 7
      let due := now + 86400 * days
      let lid := s.nextLid
      let loan : Loan := ⟨lid, item, user, none, now, due, none, false, none⟩
      let s1 : State := { s with loans := s.loans ++ [loan], nextLid := s.nextLid + 1 }
      let s2 : State := { s1 with items := s1.items.map (fun i =>
        if i.iid = item then { i with status := .checkedOut } else i) }
      let s3 : State := fn_audit actor "loan" lid "checkout_adhoc" s2
      .ok (lid, fn_create_notification user .loan s3)
  else .error .itemUnavailable

/-- `fn_return_loan`: look up the loan joined with its item, reject an
already-returned loan, set `return_at`/`damaged`/`return_condition`.
The UPDATE fires `trg_loans_after_update`, which (the old row being open
and the new one damaged) inserts a maintenance ticket opened by the
borrower — `ON CONFLICT DO NOTHING` never suppresses it because
`maintenance_tickets` has no unique or exclusion constraint — and marks the
item `out_of_service`.  The function then sets the item status itself,
inserts a penalty and its notification if overdue, inserts its own
maintenance ticket (opened by the actor) if damaged, and notifies the
borrower of the return. -/
def fn_return_loan (actor lid : ℕ) (damaged : Bool) (condition : Option String)
    (now : ℤ) (s : State) : Except Err State :=
  match findLoan s lid with
  | none => .error .notFound
  | some l =>
    match findItem s l.itemId with
    | none => .error .notFound
    | some _ =>
      match l.returnAt with
      | some _ => .error .alreadyReturned
      | none =>
        let s1 : State := { s with loans := s.loans.map (fun x =>
          if x.lid = lid then
            { x with returnAt := some now, damaged := damaged,
                     returnCondition := condition }
          else x) }
        let s2 :=
          if damaged then
            let s2a : State := { s1 with tickets := s1.tickets ++
              [⟨l.itemId, some lid, l.userId, .medium, .tOpen,
                condition.getD "Damaged on return"⟩] }
            { s2a with items := s2a.items.map (fun i =>
              if i.iid = l.itemId then { i with status := .outOfService }
              else i) }
          else s1
        let s3 : State := { s2 with items := s2.items.map (fun i =>
          if i.iid = l.itemId then
            { i with status := if damaged then .outOfService else .available }
          else i) }
        let amount := fn_compute_penalty_amount s.settings l.dueAt now
        let s4 :=
          if 0 < amount then
            let s4a : State := { s3 with penalties := s3.penalties ++
              [⟨lid, l.userId, amount, "overdue"⟩] }
            fn_create_notification l.userId .penalty s4a
          else s3
        let s5 :=
          if damaged then
            { s4 with tickets := s4.tickets ++
              [⟨l.itemId, some lid, actor, .medium, .tOpen,
                condition.getD "Damaged on return"⟩] }
          else s4
        let s6 : State := fn_audit actor "loan" lid "return" s5
        .ok (fn_create_notification l.userId .returned s6)

/-- The WHERE clause shared by the UPDATE and the notification cursor of
`fn_expire_old_reservations`. -/
def staleB (now : ℤ) (r : Reservation) : Bool :=
  (decide (r.status = .pending) || decide (r.status = .approved)) &&
    decide (r.period.hi < now)

/-- `fn_expire_old_reservations`: UPDATE every stale `pending`/`approved`
reservation to `expired` and return the row count.  The notification cursor
is declared before but OPENED after the UPDATE, so its query — which again
selects rows with status `pending`/`approved` joined with their items — runs
against the already-updated table. -/
def fn_expire_old_reservations (now : ℤ) (s : State) : ℕ × State :=
  let n := (s.reservations.filter (staleB now)).length
  let s1 : State := { s with reservations := s.reservations.map (fun r =>
    if staleB now r then { r with status := .expired } else r) }
  let s2 : State := (s1.reservations.filter (fun r =>
      staleB now r && (findItem s1 r.itemId).isSome)).foldl
    (fun acc r => fn_create_notification r.userId .reservation acc) s1
  (n, s2)

/-- One lifecycle operation together with its arguments. -/
inductive Op
  | request (actor item : ℕ) (lo hi : ℤ)
  | approve (approver rid : ℕ) (reason : Option String)
  | deny (approver rid : ℕ) (reason : Option String)
  | cancel (actor rid : ℕ) (now : ℤ)
  | checkoutRes (actor rid : ℕ) (now : ℤ)
  | checkoutAdhocOp (actor user item : ℕ) (now : ℤ)
  | returnLoanOp (actor lid : ℕ) (damaged : Bool) (condition : Option String) (now : ℤ)
  | expire (now : ℤ)

/-- Run one operation as a transaction: a raised error rolls back, leaving
the state unchanged. -/
def applyOp (o : Op) (s : State) : State :=
  match o with
  | .request a i lo hi =>
    match fn_request_reservation a i lo hi s with
    | .ok (_, s') => s'
    | .error _ => s
  | .approve a r rs =>
    match fn_approve_reservation a r rs s with
    | .ok s' => s'
    | .error _ => s
  | .deny a r rs =>
    match denyReservationApi a r rs s with
    | .ok s' => s'
    | .error _ => s
  | .cancel a r now =>
    match fn_cancel_reservation a r now s with
    | .ok s' => s'
    | .error _ => s
  | .checkoutRes a r now =>
    match fn_checkout_from_reservation a r now s with
    | .ok (_, s') => s'
    | .error _ => s
  | .checkoutAdhocOp a u i now =>
    match fn_checkout_adhoc a u i now s with
    | .ok (_, s') => s'
    | .error _ => s
  | .returnLoanOp a l d c now =>
    match fn_return_loan a l d c now s with
    | .ok s' => s'
    | .error _ => s
  | .expire now => (fn_expire_old_reservations now s).2

/-- A reservation counts against the double-booking invariant iff its
status is `approved` or `confirmed`. -/
def ResActive (r : Reservation) : Prop :=
  r.status = .approved ∨ r.status = .confirmed

instance (r : Reservation) : Decidable (ResActive r) := by
  unfold ResActive; infer_instance

/-- No double-booking: any two distinct approved/confirmed reservations on
the same item have disjoint periods. -/
def NoDoubleBooking (l : List Reservation) : Prop :=
  ∀ a ∈ l, ∀ b ∈ l, a.rid ≠ b.rid → ResActive a → ResActive b →
    a.itemId = b.itemId → ¬ overlaps a.period b.period

/-- Well-formedness carried by every database state: reservation ids are
below the sequence counter, pairwise distinct, and no double-booking. -/
def WF (s : State) : Prop :=
  (∀ r ∈ s.reservations, r.rid < s.nextRid) ∧
    (s.reservations.map (fun r => r.rid)).Nodup ∧
    NoDoubleBooking s.reservations

/-- States reachable from a starting state by running lifecycle operations. -/
inductive ReachableFrom (s0 : State) : State → Prop
  | refl : ReachableFrom s0 s0
  | step (o : Op) {s : State} : ReachableFrom s0 s → ReachableFrom s0 (applyOp o s)

end CELMS

namespace CELMS

/-! ### Basic facts about the embedding -/

@[simp] lemma fn_audit_reservations (a : ℕ) (e : String) (i : ℕ) (ac : String)
    (s : State) : (fn_audit a e i ac s).reservations = s.reservations := rfl

@[simp] lemma fn_audit_loans (a : ℕ) (e : String) (i : ℕ) (ac : String)
    (s : State) : (fn_audit a e i ac s).loans = s.loans := rfl

@[simp] lemma fn_audit_items (a : ℕ) (e : String) (i : ℕ) (ac : String)
    (s : State) : (fn_audit a e i ac s).items = s.items := rfl

@[simp] lemma fn_audit_tickets (a : ℕ) (e : String) (i : ℕ) (ac : String)
    (s : State) : (fn_audit a e i ac s).tickets = s.tickets := rfl

@[simp] lemma fn_audit_notifications (a : ℕ) (e : String) (i : ℕ) (ac : String)
    (s : State) : (fn_audit a e i ac s).notifications = s.notifications := rfl

@[simp] lemma fn_audit_nextRid (a : ℕ) (e : String) (i : ℕ) (ac : String)
    (s : State) : (fn_audit a e i ac s).nextRid = s.nextRid := rfl

@[simp] lemma fn_create_notification_reservations (u : ℕ) (t : NType)
    (s : State) : (fn_create_notification u t s).reservations = s.reservations := rfl

@[simp] lemma fn_create_notification_loans (u : ℕ) (t : NType)
    (s : State) : (fn_create_notification u t s).loans = s.loans := rfl

@[simp] lemma fn_create_notification_items (u : ℕ) (t : NType)
    (s : State) : (fn_create_notification u t s).items = s.items := rfl

@[simp] lemma fn_create_notification_tickets (u : ℕ) (t : NType)
    (s : State) : (fn_create_notification u t s).tickets = s.tickets := rfl

@[simp] lemma fn_create_notification_nextRid (u : ℕ) (t : NType)
    (s : State) : (fn_create_notification u t s).nextRid = s.nextRid := rfl

/-- A `find?` over a list that was mapped by a key-preserving function. -/
lemma find?_key_map {α : Type} (l : List α) (f : α → α) (g : α → ℕ)
    (hf : ∀ x, g (f x) = g x) (n : ℕ) :
    (l.map f).find? (fun x => decide (g x = n)) =
      (l.find? (fun x => decide (g x = n))).map f := by
  rw [List.find?_map]
  have hp : ((fun x => decide (g x = n)) ∘ f) = fun x => decide (g x = n) := by
    funext x
    simp [Function.comp, hf x]
  rw [hp]

lemma rid_of_findReservation {s : State} {rid : ℕ} {r : Reservation}
    (h : findReservation s rid = some r) : r.rid = rid := by
  unfold findReservation at h
  simpa using List.find?_some h

lemma mem_of_findReservation {s : State} {rid : ℕ} {r : Reservation}
    (h : findReservation s rid = some r) : r ∈ s.reservations :=
  List.mem_of_find?_eq_some h

lemma lid_of_findLoan {s : State} {lid : ℕ} {l : Loan}
    (h : findLoan s lid = some l) : l.lid = lid := by
  unfold findLoan at h
  simpa using List.find?_some h

lemma mem_of_findLoan {s : State} {lid : ℕ} {l : Loan}
    (h : findLoan s lid = some l) : l ∈ s.loans :=
  List.mem_of_find?_eq_some h

/-! ### C5: penalty computation -/

lemma penalty_on_time (st : Settings) (dueAt returnAt : ℤ)
    (h : returnAt ≤ dueAt) : fn_compute_penalty_amount st dueAt returnAt = 0 := by
  unfold fn_compute_penalty_amount
  rw [if_pos h]

lemma penalty_late (st : Settings) (dueAt returnAt : ℤ) (h : dueAt < returnAt) :
    fn_compute_penalty_amount st dueAt returnAt =
      ((⌈((returnAt - dueAt : ℤ) : ℚ) / 86400⌉ : ℤ) : ℚ) *
        st.penaltyPerDay.getD 10 := by
  unfold fn_compute_penalty_amount
  rw [if_neg (by omega)]
  have hpos : (0 : ℚ) < ((returnAt - dueAt : ℤ) : ℚ) / 86400 := by
    apply div_pos
    · exact_mod_cast sub_pos.mpr h
    · norm_num
  have hceil : 0 < ⌈((returnAt - dueAt : ℤ) : ℚ) / 86400⌉ := Int.ceil_pos.mpr hpos
  rw [max_eq_right hceil.le]

/-- C5 — Penalty computation: zero when returned on or before the due
instant, otherwise the ceiling of the number of late days times the per-day
rate (default 10 when the setting is absent); examples at 23h, 48h and -1h
late; and the amount is always a natural-number multiple of the rate. -/
theorem C5_penalty_computation (st : Settings) (dueAt returnAt : ℤ) :
    (returnAt ≤ dueAt → fn_compute_penalty_amount st dueAt returnAt = 0)
    ∧ (dueAt < returnAt →
        fn_compute_penalty_amount st dueAt returnAt =
          ((⌈((returnAt - dueAt : ℤ) : ℚ) / 86400⌉ : ℤ) : ℚ) *
            st.penaltyPerDay.getD 10)
    ∧ fn_compute_penalty_amount st dueAt dueAt = 0
    ∧ fn_compute_penalty_amount st dueAt (dueAt + 82800) =
        1 * st.penaltyPerDay.getD 10
    ∧ fn_compute_penalty_amount st dueAt (dueAt + 172800) =
        2 * st.penaltyPerDay.getD 10
    ∧ fn_compute_penalty_amount st dueAt (dueAt - 3600) = 0
    ∧ ∃ k : ℕ, fn_compute_penalty_amount st dueAt returnAt =
        (k : ℚ) * st.penaltyPerDay.getD 10 := by
  refine ⟨penalty_on_time st dueAt returnAt, penalty_late st dueAt returnAt,
    penalty_on_time st dueAt dueAt le_rfl, ?_, ?_,
    penalty_on_time st dueAt (dueAt - 3600) (by omega), ?_⟩
  · rw [penalty_late st dueAt (dueAt + 82800) (by omega)]
    have h1 : (⌈((dueAt + 82800 - dueAt : ℤ) : ℚ) / 86400⌉ : ℤ) = 1 := by
      have he : ((dueAt + 82800 - dueAt : ℤ) : ℚ) = 82800 := by push_cast; ring
      rw [he, Int.ceil_eq_iff]; norm_num
    rw [h1]
    norm_num
  · rw [penalty_late st dueAt (dueAt + 172800) (by omega)]
    have h2 : (⌈((dueAt + 172800 - dueAt : ℤ) : ℚ) / 86400⌉ : ℤ) = 2 := by
      have he : ((dueAt + 172800 - dueAt : ℤ) : ℚ) = 172800 := by push_cast; ring
      rw [he, Int.ceil_eq_iff]; norm_num
    rw [h2]
    norm_num
  · by_cases h : returnAt ≤ dueAt
    · exact ⟨0, by rw [penalty_on_time st dueAt returnAt h]; norm_num⟩
    · have h' : dueAt < returnAt := by omega
      refine ⟨(⌈((returnAt - dueAt : ℤ) : ℚ) / 86400⌉ : ℤ).toNat, ?_⟩
      rw [penalty_late st dueAt returnAt h']
      have hpos : (0 : ℚ) < ((returnAt - dueAt : ℤ) : ℚ) / 86400 := by
        apply div_pos
        · exact_mod_cast sub_pos.mpr h'
        · norm_num
      have hceil : 0 ≤ ⌈((returnAt - dueAt : ℤ) : ℚ) / 86400⌉ :=
        (Int.ceil_pos.mpr hpos).le
      congr 1
      exact_mod_cast (Int.toNat_of_nonneg hceil).symm

/-- Witness for C5 at concrete inputs. -/
theorem C5_penalty_computation_witness :
    (0 : ℤ) < 86400 ∧ fn_compute_penalty_amount ⟨some 7, some 10⟩ 0 86400 =
      ((⌈((86400 - 0 : ℤ) : ℚ) / 86400⌉ : ℤ) : ℚ) * 10 := by
  refine ⟨by norm_num, ?_⟩
  exact (C5_penalty_computation ⟨some 7, some 10⟩ 0 86400).2.1 (by norm_num)

end CELMS
namespace CELMS

/-! ### C9: deny requires a reason -/

lemma deny_status_preserving (x : Reservation) (rid approver : ℕ)
    (t : Option String) :
    (if x.rid = rid then
      { x with status := RStatus.denied, decidedBy := some approver,
               decisionReason := t }
     else x).rid = x.rid := by
  by_cases h : x.rid = rid <;> simp [h]

lemma fn_deny_run (approver rid : ℕ) (t : Option String) (s : State)
    (r : Reservation) (it : Item)
    (hr : findReservation s rid = some r) (hi : findItem s r.itemId = some it) :
    fn_deny_reservation approver rid t s =
      .ok (fn_create_notification r.userId .reservation
        (fn_audit approver "reservation" rid "deny"
          { s with reservations := s.reservations.map (fun x =>
              if x.rid = rid then
                { x with status := .denied, decidedBy := some approver,
                         decisionReason := t }
              else x) })) := by
  unfold fn_deny_reservation
  rw [hr]
  dsimp only
  rw [hi]

/-- C9 — DenyReservation requires a reason: a deny call with the reason
absent (or empty) is rejected by the API route with a missing-reason error
before any database mutation; with a nonempty reason the reservation is
denied with decider and reason recorded. -/
theorem C9_deny_requires_reason (approver rid : ℕ) (s : State) :
    denyReservationApi approver rid none s = .error .missingReason
    ∧ denyReservationApi approver rid (some "") s = .error .missingReason
    ∧ (∀ t : String, t ≠ "" → ∀ r : Reservation, ∀ it : Item,
        findReservation s rid = some r → findItem s r.itemId = some it →
        ∃ s', denyReservationApi approver rid (some t) s = .ok s' ∧
          findReservation s' rid = some
            { r with status := .denied, decidedBy := some approver,
                     decisionReason := some t }) := by
  refine ⟨rfl, rfl, ?_⟩
  intro t ht r it hr hi
  have hrun := fn_deny_run approver rid (some t) s r it hr hi
  have happ : denyReservationApi approver rid (some t) s =
      .ok (fn_create_notification r.userId .reservation
        (fn_audit approver "reservation" rid "deny"
          { s with reservations := s.reservations.map (fun x =>
              if x.rid = rid then
                { x with status := .denied, decidedBy := some approver,
                         decisionReason := some t }
              else x) })) := by
    unfold denyReservationApi
    dsimp only
    rw [if_neg ht]
    exact hrun
  refine ⟨_, happ, ?_⟩
  unfold findReservation
  simp only [fn_create_notification_reservations, fn_audit_reservations]
  rw [find?_key_map _ _ (fun x => x.rid)
    (fun x => deny_status_preserving x rid approver (some t)) rid]
  unfold findReservation at hr
  rw [hr]
  have hrr : r.rid = rid := by
    simpa using List.find?_some hr
  simp [hrr]

/-- Witness for C9 at a concrete state. -/
theorem C9_deny_requires_reason_witness :
    denyReservationApi 9 1 none
      ⟨[⟨1, 1, 5, ⟨0, 10⟩, .pending, none, none⟩], [], [⟨1, .available⟩],
        [], [], [], [], ⟨some 7, some 10⟩, 2, 1⟩ = .error .missingReason ∧
    (∃ s', denyReservationApi 9 1 (some "late") 
      ⟨[⟨1, 1, 5, ⟨0, 10⟩, .pending, none, none⟩], [], [⟨1, .available⟩],
        [], [], [], [], ⟨some 7, some 10⟩, 2, 1⟩ = .ok s' ∧
      findReservation s' 1 = some ⟨1, 1, 5, ⟨0, 10⟩, .denied, some 9, some "late"⟩) := by
  refine ⟨(C9_deny_requires_reason 9 1 _).1, ?_⟩
  have h := (C9_deny_requires_reason 9 1
      ⟨[⟨1, 1, 5, ⟨0, 10⟩, .pending, none, none⟩], [], [⟨1, .available⟩],
        [], [], [], [], ⟨some 7, some 10⟩, 2, 1⟩).2.2 "late" (by decide)
    ⟨1, 1, 5, ⟨0, 10⟩, .pending, none, none⟩ ⟨1, .available⟩ rfl rfl
  exact h

end CELMS

namespace CELMS

/-! ### C7: return succeeds once, second return rejected -/

lemma return_loan_key (x : Loan) (lid : ℕ) (now : ℤ) (damaged : Bool)
    (condition : Option String) :
    (if x.lid = lid then
      { x with returnAt := some now, damaged := damaged,
               returnCondition := condition }
     else x).lid = x.lid := by
  by_cases h : x.lid = lid <;> simp [h]

lemma return_item_key (i : Item) (itemId : ℕ) (st : IStatus) :
    (if i.iid = itemId then { i with status := st } else i).iid = i.iid := by
  by_cases h : i.iid = itemId <;> simp [h]

/-- Running `fn_return_loan` on an open loan: the loan row is updated in
place and every copy of the returned item gets status `out_of_service` when
damaged, `available` otherwise. -/
lemma fn_return_run (actor lid : ℕ) (damaged : Bool) (condition : Option String)
    (now : ℤ) (s : State) (l : Loan) (it : Item)
    (hl : findLoan s lid = some l) (hi : findItem s l.itemId = some it)
    (hopen : l.returnAt = none) :
    ∃ s', fn_return_loan actor lid damaged condition now s = .ok s'
      ∧ s'.loans = s.loans.map (fun x =>
          if x.lid = lid then
            { x with returnAt := some now, damaged := damaged,
                     returnCondition := condition }
          else x)
      ∧ s'.items = s.items.map (fun i =>
          if i.iid = l.itemId then
            { i with status := if damaged then IStatus.outOfService else .available }
          else i)
      ∧ s'.reservations = s.reservations ∧ s'.nextRid = s.nextRid := by
  unfold fn_return_loan
  rw [hl]
  dsimp only
  rw [hi]
  dsimp only
  rw [hopen]
  dsimp only
  cases damaged
  · simp only [Bool.false_eq_true, if_false]
    by_cases hp : 0 < fn_compute_penalty_amount s.settings l.dueAt now
    · rw [if_pos hp]
      exact ⟨_, rfl, rfl, rfl, rfl, rfl⟩
    · rw [if_neg hp]
      exact ⟨_, rfl, rfl, rfl, rfl, rfl⟩
  · simp only [if_true]
    by_cases hp : 0 < fn_compute_penalty_amount s.settings l.dueAt now
    · rw [if_pos hp]
      refine ⟨_, rfl, rfl, ?_, rfl, rfl⟩
      rw [List.map_map]
      apply List.map_congr_left
      intro i _
      by_cases h : i.iid = l.itemId <;> simp [Function.comp, h]
    · rw [if_neg hp]
      refine ⟨_, rfl, rfl, ?_, rfl, rfl⟩
      rw [List.map_map]
      apply List.map_congr_left
      intro i _
      by_cases h : i.iid = l.itemId <;> simp [Function.comp, h]

end CELMS

namespace CELMS

/-- C7 — Return idempotence-by-rejection: the first ReturnLoan on an open
loan succeeds, sets `return_at`, and sets the asset status to
`out_of_service` when damaged and `available` otherwise; a second ReturnLoan
on the same loan fails with the already-returned error and, run as a
transaction, changes nothing. -/
theorem C7_return_idempotent_by_rejection
    (actor lid : ℕ) (damaged : Bool) (condition : Option String) (now : ℤ)
    (actor2 : ℕ) (damaged2 : Bool) (condition2 : Option String) (now2 : ℤ)
    (s : State) (l : Loan) (it : Item)
    (hl : findLoan s lid = some l) (hi : findItem s l.itemId = some it)
    (hopen : l.returnAt = none) :
    ∃ s', fn_return_loan actor lid damaged condition now s = .ok s'
      ∧ findLoan s' lid = some
          { l with returnAt := some now, damaged := damaged,
                   returnCondition := condition }
      ∧ (∀ i ∈ s'.items, i.iid = l.itemId →
          i.status = if damaged then IStatus.outOfService else .available)
      ∧ fn_return_loan actor2 lid damaged2 condition2 now2 s' =
          .error .alreadyReturned
      ∧ applyOp (.returnLoanOp actor2 lid damaged2 condition2 now2) s' = s' := by
  obtain ⟨s', hrun, hloans, hitems, -, -⟩ :=
    fn_return_run actor lid damaged condition now s l it hl hi hopen
  have hll : l.lid = lid := lid_of_findLoan hl
  have hfind2 : findLoan s' lid = some
      { l with returnAt := some now, damaged := damaged,
               returnCondition := condition } := by
    unfold findLoan
    rw [hloans, find?_key_map _ _ (fun x => x.lid)
      (fun x => return_loan_key x lid now damaged condition) lid]
    unfold findLoan at hl
    rw [hl]
    simp [hll]
  have hitem2 : findItem s' l.itemId = some
      (if it.iid = l.itemId then
        { it with status := if damaged then IStatus.outOfService else .available }
       else it) := by
    unfold findItem
    rw [hitems, find?_key_map _ _ (fun x => x.iid)
      (fun x => return_item_key x l.itemId _) l.itemId]
    unfold findItem at hi
    rw [hi]
    rfl
  have hsecond : fn_return_loan actor2 lid damaged2 condition2 now2 s' =
      .error .alreadyReturned := by
    unfold fn_return_loan
    rw [hfind2]
    dsimp only
    rw [hitem2]
  refine ⟨s', hrun, hfind2, ?_, hsecond, ?_⟩
  · intro i hmem hiq
    rw [hitems] at hmem
    obtain ⟨i0, hi0, rfl⟩ := List.mem_map.mp hmem
    by_cases h : i0.iid = l.itemId
    · simp [h]
    · rw [if_neg h] at hiq ⊢
      exact absurd hiq h
  · unfold applyOp
    dsimp only
    rw [hsecond]

/-- A fixture: one checked-out item with one open loan due at time 100. -/
def sFix1 : State :=
  ⟨[], [⟨1, 1, 5, none, 0, 100, none, false, none⟩], [⟨1, .checkedOut⟩],
    [], [], [], [], ⟨some 7, some 10⟩, 1, 2⟩

/-- Witness for C7 at a concrete state. -/
theorem C7_return_idempotent_by_rejection_witness :
    ∃ s', fn_return_loan 9 1 false none 50 sFix1 = .ok s'
      ∧ findLoan s' 1 = some ⟨1, 1, 5, none, 0, 100, some 50, false, none⟩
      ∧ (∀ i ∈ s'.items, i.iid = 1 →
          i.status = if false then IStatus.outOfService else .available)
      ∧ fn_return_loan 8 1 true (some "x") 60 s' = .error .alreadyReturned
      ∧ applyOp (.returnLoanOp 8 1 true (some "x") 60) s' = s' := by
  exact C7_return_idempotent_by_rejection 9 1 false none 50 8 true (some "x") 60
    sFix1 ⟨1, 1, 5, none, 0, 100, none, false, none⟩ ⟨1, .checkedOut⟩ rfl rfl rfl

end CELMS

namespace CELMS

/-! ### C3: damaged return creates two maintenance tickets, not one -/

/-- C3 — On a damaged return of an open loan the code ends up with TWO
maintenance tickets for the loan+item combination, not one: the AFTER
UPDATE trigger inserts a ticket (opened by the borrower) and the explicit
insert inside `fn_return_loan` adds a second one (opened by the actor);
`maintenance_tickets` carries no deduplication constraint, so the trigger's
`ON CONFLICT DO NOTHING` never suppresses anything. -/
theorem C3_damaged_return_two_tickets :
    (fn_return_loan 9 1 true none 50 sFix1).toOption.map (fun s' =>
      (s'.tickets.filter (fun t =>
        decide (t.loanId = some 1) && decide (t.itemId = 1))).length) = some 2
    ∧ (fn_return_loan 9 1 true none 50 sFix1).toOption.map
        (fun s' => s'.tickets) = some
        [⟨1, some 1, 5, .medium, .tOpen, "Damaged on return"⟩,
         ⟨1, some 1, 9, .medium, .tOpen, "Damaged on return"⟩] := by
  constructor
  · rfl
  · rfl

/-! ### C4: expiry sweep emits no notifications -/

/-- A fixture: one stale pending reservation (period long past) on an
available item. -/
def sFix2 : State :=
  ⟨[⟨1, 1, 5, ⟨0, 10⟩, .pending, none, none⟩], [], [⟨1, .available⟩],
    [], [], [], [], ⟨some 7, some 10⟩, 2, 1⟩

lemma expire_map_not_stale (now : ℤ) (s : State) :
    ∀ r ∈ s.reservations.map (fun r =>
      if staleB now r then { r with status := RStatus.expired } else r),
      ¬ staleB now r = true := by
  intro r hr
  obtain ⟨r0, _, rfl⟩ := List.mem_map.mp hr
  by_cases h : staleB now r0 = true
  · rw [if_pos h]
    simp [staleB]
  · rw [if_neg h]
    exact h

/-- The full effect of `fn_expire_old_reservations` on the state: stale
rows become `expired` and nothing else changes — in particular no
notification row is ever appended, because the cursor query runs after the
UPDATE and finds no row still in `pending`/`approved`. -/
lemma expire_state (now : ℤ) (s : State) :
    (fn_expire_old_reservations now s).2 =
      { s with reservations := s.reservations.map (fun r =>
          if staleB now r then { r with status := RStatus.expired } else r) } := by
  unfold fn_expire_old_reservations
  dsimp only
  have hnil : ({ s with reservations := s.reservations.map (fun r =>
      if staleB now r then { r with status := RStatus.expired } else r) } :
        State).reservations.filter (fun r =>
      staleB now r && (findItem { s with reservations := s.reservations.map (fun r =>
        if staleB now r then { r with status := RStatus.expired } else r) } r.itemId).isSome) = [] := by
    rw [List.filter_eq_nil_iff]
    intro a ha
    have := expire_map_not_stale now s a ha
    simp [this]
  rw [hnil]
  rfl

/-- C4 — ExpireStaleReservations at a failing input: one stale pending
reservation is expired and counted, but NO notification is emitted (the
spec requires one per affected reservation); in general the sweep never
appends a notification, and an immediately repeated sweep returns 0. -/
theorem C4_expire_behaviour :
    (∀ now : ℤ, ∀ s : State,
      (fn_expire_old_reservations now s).2.notifications = s.notifications)
    ∧ (∀ now : ℤ, ∀ s : State,
        (fn_expire_old_reservations now
          ((fn_expire_old_reservations now s).2)).1 = 0)
    ∧ (fn_expire_old_reservations 20 sFix2).1 = 1
    ∧ (findReservation (fn_expire_old_reservations 20 sFix2).2 1).map
        (fun r => r.status) = some .expired
    ∧ (fn_expire_old_reservations 20 sFix2).2.notifications =
        sFix2.notifications
    ∧ (fn_expire_old_reservations 20 (fn_expire_old_reservations 20 sFix2).2).1 = 0 := by
  refine ⟨?_, ?_, rfl, rfl, rfl, rfl⟩
  · intro now s
    rw [expire_state]
  · intro now s
    rw [expire_state]
    unfold fn_expire_old_reservations
    dsimp only
    rw [List.filter_eq_nil_iff.mpr (expire_map_not_stale now s)]
    rfl

end CELMS

namespace CELMS

/-! ### C2: request-time behaviour of overlapping reservation requests -/

/-- A fixture: one available item, no reservations, no loans. -/
def sFix3 : State :=
  ⟨[], [], [⟨1, .available⟩], [], [], [], [], ⟨some 7, some 10⟩, 1, 1⟩

/-- C2 counterexample — the claim says two successive overlapping requests
for the same asset both succeed; at this concrete input the first succeeds
and the second is rejected by the `reservations_no_overlap` exclusion
constraint. -/
theorem C2_counterexample_second_request_fails :
    (0 : ℤ) < 10 ∧ (5 : ℤ) < 15 ∧ overlaps ⟨0, 10⟩ ⟨5, 15⟩
    ∧ (fn_request_reservation 5 1 0 10 sFix3).toOption.map
        (fun p => p.1) = some 1
    ∧ (fn_request_reservation 5 1 0 10 sFix3).toOption.map
        (fun p => fn_request_reservation 6 1 5 15 p.2) =
        some (.error .exclusionViolation) := by
  refine ⟨by norm_num, by norm_num, ?_, rfl, rfl⟩
  refine ⟨by norm_num, by norm_num, by norm_num, by norm_num⟩

/-- C2 (amended) — RequestReservation performs no overlap check in the
function body, but its INSERT is subject to the schema's
`reservations_no_overlap` exclusion constraint, which rejects a period
overlapping any existing reservation on the item regardless of status:
of two successive overlapping requests, the first succeeds and creates a
`pending` reservation, the second fails with an exclusion violation. -/
theorem C2_amended_first_succeeds_second_rejected
    (actor1 actor2 item : ℕ) (lo1 hi1 lo2 hi2 : ℤ) (s : State)
    (hv1 : lo1 < hi1) (hv2 : lo2 < hi2) (hov1 : lo1 < hi2) (hov2 : lo2 < hi1)
    (hclear : ∀ x ∈ s.reservations, x.itemId = item →
      ¬ overlaps x.period ⟨lo1, hi1⟩) :
    ∃ s', fn_request_reservation actor1 item lo1 hi1 s = .ok (s.nextRid, s')
      ∧ s'.reservations = s.reservations ++
          [⟨s.nextRid, item, actor1, ⟨lo1, hi1⟩, .pending, none, none⟩]
      ∧ fn_request_reservation actor2 item lo2 hi2 s' =
          .error .exclusionViolation := by
  have hno : ¬ ∃ x ∈ s.reservations, x.itemId = item ∧
      overlaps x.period ⟨lo1, hi1⟩ := by
    rintro ⟨x, hx, hxi, hxov⟩
    exact hclear x hx hxi hxov
  have hfirst : fn_request_reservation actor1 item lo1 hi1 s =
      .ok (s.nextRid, fn_create_notification actor1 .reservation
        (fn_audit actor1 "reservation" s.nextRid "request"
          { s with reservations := s.reservations ++ [⟨s.nextRid, item, actor1, ⟨lo1, hi1⟩, .pending, none, none⟩], nextRid := s.nextRid + 1 })) := by
    unfold fn_request_reservation
    rw [if_pos hv1, if_neg hno]
  refine ⟨_, hfirst, rfl, ?_⟩
  unfold fn_request_reservation
  rw [if_pos hv2]
  have hyes : ∃ x ∈ (fn_create_notification actor1 NType.reservation
      (fn_audit actor1 "reservation" s.nextRid "request"
        { s with reservations := s.reservations ++ [⟨s.nextRid, item, actor1, ⟨lo1, hi1⟩, .pending, none, none⟩], nextRid := s.nextRid + 1 })).reservations,
      x.itemId = item ∧ overlaps x.period ⟨lo2, hi2⟩ := by
    refine ⟨⟨s.nextRid, item, actor1, ⟨lo1, hi1⟩, .pending, none, none⟩, ?_,
      rfl, ⟨hv1, hv2, hov1, hov2⟩⟩
    simp
  rw [if_pos hyes]

/-- Witness for the amended C2 at a concrete state. -/
theorem C2_amended_witness :
    ∃ s', fn_request_reservation 5 1 0 10 sFix3 = .ok (sFix3.nextRid, s')
      ∧ s'.reservations = sFix3.reservations ++
          [⟨sFix3.nextRid, 1, 5, ⟨0, 10⟩, .pending, none, none⟩]
      ∧ fn_request_reservation 6 1 5 15 s' = .error .exclusionViolation := by
  exact C2_amended_first_succeeds_second_rejected 5 6 1 0 10 5 15 sFix3
    (by norm_num) (by norm_num) (by norm_num) (by norm_num)
    (by intro x hx; simp [sFix3] at hx)

end CELMS

namespace CELMS

/-! ### Shared run lemmas for approve / cancel, and find-in-updated-state -/

lemma find?_res_map (l : List Reservation) (rid : ℕ) (r : Reservation)
    (f : Reservation → Reservation) (hf : ∀ x, (f x).rid = x.rid)
    (hr : l.find? (fun x => decide (x.rid = rid)) = some r) :
    (l.map f).find? (fun x => decide (x.rid = rid)) = some (f r) := by
  rw [List.find?_map]
  have hp : ((fun x => decide (x.rid = rid)) ∘ f) = fun x => decide (x.rid = rid) := by
    funext x
    simp [Function.comp, hf x]
  rw [hp, hr]
  rfl

lemma res_full_update_key (x : Reservation) (rid : ℕ) (st : RStatus)
    (db : Option ℕ) (dr : Option String) :
    (if x.rid = rid then
      { x with status := st, decidedBy := db, decisionReason := dr }
     else x).rid = x.rid := by
  by_cases h : x.rid = rid <;> simp [h]

lemma res_status_update_key (x : Reservation) (rid : ℕ) (st : RStatus) :
    (if x.rid = rid then { x with status := st } else x).rid = x.rid := by
  by_cases h : x.rid = rid <;> simp [h]

/-- Running `fn_approve_reservation` when the status guard and the overlap
guard both pass. -/
lemma fn_approve_run (approver rid : ℕ) (reason : Option String) (s : State)
    (r : Reservation) (it : Item)
    (hr : findReservation s rid = some r) (hi : findItem s r.itemId = some it)
    (hst : r.status = .pending ∨ r.status = .approved ∨ r.status = .confirmed)
    (hno : ¬ ∃ x ∈ s.reservations, x.rid ≠ rid ∧
      (x.status = .approved ∨ x.status = .confirmed) ∧
      x.itemId = r.itemId ∧ overlaps x.period r.period) :
    fn_approve_reservation approver rid reason s =
      .ok (fn_create_notification r.userId .reservation
        (fn_audit approver "reservation" rid "approve"
          { s with reservations := s.reservations.map (fun x =>
              if x.rid = rid then
                { x with status := .approved, decidedBy := some approver,
                         decisionReason := reason }
              else x) })) := by
  unfold fn_approve_reservation
  rw [hr]
  dsimp only
  rw [hi]
  dsimp only
  rw [if_pos hst, if_neg hno]

/-- Running `fn_approve_reservation` when an overlapping approved/confirmed
reservation on the same item exists: the overlap error is raised. -/
lemma fn_approve_overlap (approver rid : ℕ) (reason : Option String)
    (s : State) (r : Reservation) (it : Item) (x : Reservation)
    (hr : findReservation s rid = some r) (hi : findItem s r.itemId = some it)
    (hst : r.status = .pending ∨ r.status = .approved ∨ r.status = .confirmed)
    (hx : x ∈ s.reservations) (hxid : x.rid ≠ rid)
    (hxact : x.status = .approved ∨ x.status = .confirmed)
    (hxitem : x.itemId = r.itemId) (hxov : overlaps x.period r.period) :
    fn_approve_reservation approver rid reason s = .error .overlap := by
  unfold fn_approve_reservation
  rw [hr]
  dsimp only
  rw [hi]
  dsimp only
  rw [if_pos hst, if_pos ⟨x, hx, hxid, hxact, hxitem, hxov⟩]

/-- Running `fn_cancel_reservation` as the owner before the start instant. -/
lemma fn_cancel_run (actor rid : ℕ) (now : ℤ) (s : State) (r : Reservation)
    (hr : findReservation s rid = some r) (howner : r.userId = actor)
    (hbefore : now < r.period.lo) :
    fn_cancel_reservation actor rid now s =
      .ok (fn_audit actor "reservation" rid "cancel"
        { s with reservations := s.reservations.map (fun x =>
            if x.rid = rid then { x with status := .cancelled } else x) }) := by
  unfold fn_cancel_reservation
  rw [hr]
  dsimp only
  rw [if_neg (fun hne => hne howner), if_neg (not_le.mpr hbefore)]

/-! ### C8: which operations respect the terminal statuses -/

/-- A fixture: one confirmed reservation for a checked-out item. -/
def sFix4 : State :=
  ⟨[⟨1, 1, 5, ⟨100, 200⟩, .confirmed, none, none⟩], [],
    [⟨1, .checkedOut⟩], [], [], [], [], ⟨some 7, some 10⟩, 2, 1⟩

/-- C8 counterexample — the claim says `confirmed` is terminal; at this
concrete input DenyReservation moves a confirmed reservation to `denied`. -/
theorem C8_counterexample_deny_confirmed :
    (findReservation sFix4 1).map (fun r => r.status) = some .confirmed
    ∧ (denyReservationApi 9 1 (some "no") sFix4).toOption.map
        (fun s' => (findReservation s' 1).map (fun r => r.status)) =
        some (some .denied) := by
  exact ⟨rfl, rfl⟩

/-- C8 (amended) — terminality holds only partially: ExpireStaleReservations
leaves every reservation in a terminal status unchanged, but DenyReservation
sets ANY existing reservation to `denied` regardless of its status,
CancelReservation cancels any reservation of its owner before the start
instant regardless of status, and ApproveReservation moves a `confirmed`
reservation back to `approved`. -/
theorem C8_amended_terminality_partial :
    (∀ now : ℤ, ∀ s : State, ∀ r ∈ s.reservations,
      (r.status = .confirmed ∨ r.status = .denied ∨ r.status = .cancelled ∨
        r.status = .expired) →
      r ∈ (fn_expire_old_reservations now s).2.reservations)
    ∧ (∀ approver rid : ℕ, ∀ t : String, ∀ s : State, ∀ r : Reservation,
        ∀ it : Item, t ≠ "" →
        findReservation s rid = some r → findItem s r.itemId = some it →
        ∃ s', denyReservationApi approver rid (some t) s = .ok s' ∧
          findReservation s' rid = some
            { r with status := .denied, decidedBy := some approver,
                     decisionReason := some t })
    ∧ (∀ actor rid : ℕ, ∀ now : ℤ, ∀ s : State, ∀ r : Reservation,
        findReservation s rid = some r → r.userId = actor →
        now < r.period.lo →
        ∃ s', fn_cancel_reservation actor rid now s = .ok s' ∧
          findReservation s' rid = some { r with status := .cancelled })
    ∧ (∀ approver rid : ℕ, ∀ reason : Option String, ∀ s : State,
        ∀ r : Reservation, ∀ it : Item,
        findReservation s rid = some r → findItem s r.itemId = some it →
        r.status = .confirmed →
        (¬ ∃ x ∈ s.reservations, x.rid ≠ rid ∧
          (x.status = .approved ∨ x.status = .confirmed) ∧
          x.itemId = r.itemId ∧ overlaps x.period r.period) →
        ∃ s', fn_approve_reservation approver rid reason s = .ok s' ∧
          findReservation s' rid = some
            { r with status := .approved, decidedBy := some approver,
                     decisionReason := reason }) := by
  refine ⟨?_, ?_, ?_, ?_⟩
  · intro now s r hmem hterm
    rw [expire_state]
    refine List.mem_map.mpr ⟨r, hmem, ?_⟩
    have hfalse : ¬ staleB now r = true := by
      rcases hterm with h | h | h | h <;> simp [staleB, h]
    rw [if_neg hfalse]
  · intro approver rid t s r it ht hr hi
    have hrun := fn_deny_run approver rid (some t) s r it hr hi
    have happ : denyReservationApi approver rid (some t) s =
        fn_deny_reservation approver rid (some t) s := by
      unfold denyReservationApi
      dsimp only
      rw [if_neg ht]
    refine ⟨_, happ.trans hrun, ?_⟩
    show findReservation _ rid = _
    unfold findReservation
    dsimp only [fn_create_notification, fn_audit]
    have h2 := find?_res_map s.reservations rid r _
      (fun x => res_full_update_key x rid .denied (some approver) (some t)) hr
    rw [if_pos (rid_of_findReservation hr)] at h2
    exact h2
  · intro actor rid now s r hr howner hbefore
    refine ⟨_, fn_cancel_run actor rid now s r hr howner hbefore, ?_⟩
    show findReservation _ rid = _
    unfold findReservation
    dsimp only [fn_audit]
    have h2 := find?_res_map s.reservations rid r _
      (fun x => res_status_update_key x rid .cancelled) hr
    rw [if_pos (rid_of_findReservation hr)] at h2
    exact h2
  · intro approver rid reason s r it hr hi hst hno
    refine ⟨_, fn_approve_run approver rid reason s r it hr hi
      (Or.inr (Or.inr hst)) hno, ?_⟩
    show findReservation _ rid = _
    unfold findReservation
    dsimp only [fn_create_notification, fn_audit]
    have h2 := find?_res_map s.reservations rid r _
      (fun x => res_full_update_key x rid .approved (some approver) reason) hr
    rw [if_pos (rid_of_findReservation hr)] at h2
    exact h2

/-- Witness for the amended C8 at concrete states. -/
theorem C8_amended_terminality_partial_witness :
    ((⟨1, 1, 5, ⟨100, 200⟩, .confirmed, none, none⟩ : Reservation) ∈
      (fn_expire_old_reservations 20 sFix4).2.reservations)
    ∧ (∃ s', denyReservationApi 9 1 (some "no") sFix4 = .ok s' ∧
        findReservation s' 1 = some ⟨1, 1, 5, ⟨100, 200⟩, .denied, some 9, some "no"⟩)
    ∧ (∃ s', fn_cancel_reservation 5 1 50 sFix4 = .ok s' ∧
        findReservation s' 1 = some ⟨1, 1, 5, ⟨100, 200⟩, .cancelled, none, none⟩)
    ∧ (∃ s', fn_approve_reservation 9 1 none sFix4 = .ok s' ∧
        findReservation s' 1 = some ⟨1, 1, 5, ⟨100, 200⟩, .approved, some 9, none⟩) := by
  refine ⟨?_, ?_, ?_, ?_⟩
  · exact C8_amended_terminality_partial.1 20 sFix4
      ⟨1, 1, 5, ⟨100, 200⟩, .confirmed, none, none⟩ (by simp [sFix4]) (Or.inl rfl)
  · exact C8_amended_terminality_partial.2.1 9 1 "no" sFix4
      ⟨1, 1, 5, ⟨100, 200⟩, .confirmed, none, none⟩ ⟨1, .checkedOut⟩
      (by decide) rfl rfl
  · exact C8_amended_terminality_partial.2.2.1 5 1 50 sFix4
      ⟨1, 1, 5, ⟨100, 200⟩, .confirmed, none, none⟩ rfl rfl (by norm_num)
  · exact C8_amended_terminality_partial.2.2.2 9 1 none sFix4
      ⟨1, 1, 5, ⟨100, 200⟩, .confirmed, none, none⟩ ⟨1, .checkedOut⟩ rfl rfl rfl
      (by rintro ⟨x, hx, hxid, -⟩; simp [sFix4] at hx; subst hx; simp at hxid)

end CELMS

namespace CELMS

/-! ### Checkout-from-reservation: run and error lemmas -/

lemma no_block_of_time (s : State) (item : ℕ) (now : ℤ)
    (hnoopen : ¬ ∃ l ∈ s.loans, l.itemId = item ∧ l.returnAt = none)
    (htime : ∀ l ∈ s.loans, ∀ t : ℤ, l.returnAt = some t → t ≤ now) :
    ¬ ∃ l ∈ s.loans, l.itemId = item ∧ loanBlocksB now l = true := by
  rintro ⟨l, hl, hli, hb⟩
  unfold loanBlocksB at hb
  cases hra : l.returnAt with
  | none => exact hnoopen ⟨l, hl, hli, hra⟩
  | some t =>
    rw [hra] at hb
    simp only [Bool.and_eq_true, decide_eq_true_eq] at hb
    have := htime l hl t hra
    omega

/-- Running `fn_checkout_from_reservation` when every guard and both
INSERT-time constraints pass. -/
lemma fn_checkout_run (actor rid : ℕ) (now : ℤ) (s : State) (r : Reservation)
    (hr : findReservation s rid = some r)
    (hst : r.status = .approved ∨ r.status = .confirmed)
    (hnoopen : ¬ ∃ l ∈ s.loans, l.itemId = r.itemId ∧ l.returnAt = none)
    (havail : ∃ i ∈ s.items, i.iid = r.itemId ∧ i.status = .available)
    (hnores : ¬ ∃ l ∈ s.loans, l.reservationId = some rid)
    (hnoblock : ¬ ∃ l ∈ s.loans, l.itemId = r.itemId ∧ loanBlocksB now l = true) :
    ∃ s', fn_checkout_from_reservation actor rid now s = .ok (s.nextLid, s')
      ∧ s'.loans = s.loans ++ [⟨s.nextLid, r.itemId, r.userId, some rid, now,
          now + 86400 * s.settings.defaultLoanDays.getD 7, none, false, none⟩]
      ∧ s'.reservations = s.reservations.map (fun x =>
          if x.rid = rid then { x with status := .confirmed } else x)
      ∧ s'.items = s.items.map (fun i =>
          if i.iid = r.itemId then { i with status := .checkedOut } else i)
      ∧ s'.nextRid = s.nextRid := by
  unfold fn_checkout_from_reservation
  rw [hr]
  dsimp only
  rw [if_pos hst, if_neg hnoopen, if_pos havail, if_neg hnores, if_neg hnoblock]
  exact ⟨_, rfl, rfl, rfl, rfl, rfl⟩

lemma fn_checkout_notFound (actor rid : ℕ) (now : ℤ) (s : State)
    (hr : findReservation s rid = none) :
    fn_checkout_from_reservation actor rid now s = .error .notFound := by
  unfold fn_checkout_from_reservation
  rw [hr]

lemma fn_checkout_badStatus (actor rid : ℕ) (now : ℤ) (s : State)
    (r : Reservation) (hr : findReservation s rid = some r)
    (hst : ¬ (r.status = .approved ∨ r.status = .confirmed)) :
    fn_checkout_from_reservation actor rid now s = .error .invalidState := by
  unfold fn_checkout_from_reservation
  rw [hr]
  dsimp only
  rw [if_neg hst]

lemma fn_checkout_checkedOut (actor rid : ℕ) (now : ℤ) (s : State)
    (r : Reservation) (hr : findReservation s rid = some r)
    (hst : r.status = .approved ∨ r.status = .confirmed)
    (hopen : ∃ l ∈ s.loans, l.itemId = r.itemId ∧ l.returnAt = none) :
    fn_checkout_from_reservation actor rid now s = .error .itemCheckedOut := by
  unfold fn_checkout_from_reservation
  rw [hr]
  dsimp only
  rw [if_pos hst, if_pos hopen]

lemma fn_checkout_unavailable (actor rid : ℕ) (now : ℤ) (s : State)
    (r : Reservation) (hr : findReservation s rid = some r)
    (hst : r.status = .approved ∨ r.status = .confirmed)
    (hnoopen : ¬ ∃ l ∈ s.loans, l.itemId = r.itemId ∧ l.returnAt = none)
    (hnavail : ¬ ∃ i ∈ s.items, i.iid = r.itemId ∧ i.status = .available) :
    fn_checkout_from_reservation actor rid now s = .error .itemUnavailable := by
  unfold fn_checkout_from_reservation
  rw [hr]
  dsimp only
  rw [if_pos hst, if_neg hnoopen, if_neg hnavail]

lemma fn_checkout_uniqueViolation (actor rid : ℕ) (now : ℤ) (s : State)
    (r : Reservation) (hr : findReservation s rid = some r)
    (hst : r.status = .approved ∨ r.status = .confirmed)
    (hnoopen : ¬ ∃ l ∈ s.loans, l.itemId = r.itemId ∧ l.returnAt = none)
    (havail : ∃ i ∈ s.items, i.iid = r.itemId ∧ i.status = .available)
    (hres : ∃ l ∈ s.loans, l.reservationId = some rid) :
    fn_checkout_from_reservation actor rid now s = .error .uniqueViolation := by
  unfold fn_checkout_from_reservation
  rw [hr]
  dsimp only
  rw [if_pos hst, if_neg hnoopen, if_pos havail, if_pos hres]

end CELMS

namespace CELMS

/-! ### C6: checkout-from-reservation contract -/

/-- At most one open loan per item, comparing loans with distinct ids. -/
def AtMostOneOpen (s : State) : Prop :=
  ∀ a ∈ s.loans, ∀ b ∈ s.loans, a.lid ≠ b.lid →
    a.returnAt = none → b.returnAt = none → a.itemId ≠ b.itemId

/-- A fixture: a confirmed reservation whose loan was already taken and
returned — the reservation again satisfies all preconditions named by the
claim, yet a second checkout violates `uq_loans_reservation`. -/
def sFix5 : State :=
  ⟨[⟨1, 1, 5, ⟨0, 10⟩, .confirmed, some 9, none⟩],
    [⟨1, 1, 5, some 1, 0, 604800, some 10, false, none⟩],
    [⟨1, .available⟩], [], [], [], [], ⟨some 7, some 10⟩, 2, 2⟩

/-- C6 counterexample — all preconditions of the claim hold (status
`confirmed`, no open loan, item `available`), yet checkout fails: a loan
row referencing the reservation already exists and the INSERT violates the
`uq_loans_reservation` UNIQUE constraint. -/
theorem C6_counterexample_second_checkout :
    (findReservation sFix5 1).map (fun r => r.status) = some .confirmed
    ∧ (¬ ∃ l ∈ sFix5.loans, l.itemId = 1 ∧ l.returnAt = none)
    ∧ (∃ i ∈ sFix5.items, i.iid = 1 ∧ i.status = .available)
    ∧ (∀ l ∈ sFix5.loans, ∀ t : ℤ, l.returnAt = some t → t ≤ 20)
    ∧ fn_checkout_from_reservation 9 1 20 sFix5 = .error .uniqueViolation := by
  refine ⟨rfl, by decide, by decide, by decide, rfl⟩

/-- C6 (amended) — CheckoutFromReservation succeeds iff the reservation
exists with status in {approved, confirmed}, the asset has no open loan,
the asset's status is `available`, AND no loan row (open or returned)
already references the reservation (`uq_loans_reservation`); failures on a
checked-out or unavailable asset raise the two unavailability errors; on
success it appends a loan with `checkout_at = now` and
`due_at = now + 86400 * default_loan_days` (default 7), marks the
reservation `confirmed` and the item `checked_out`; and it preserves
at-most-one-open-loan-per-asset.  The time hypothesis says no recorded
return lies in the future of `now`, which every reachable state satisfies. -/
theorem C6_checkout_contract (actor rid : ℕ) (now : ℤ) (s : State)
    (htime : ∀ l ∈ s.loans, ∀ t : ℤ, l.returnAt = some t → t ≤ now) :
    ((∃ p : ℕ × State, fn_checkout_from_reservation actor rid now s = .ok p) ↔
      ∃ r : Reservation, findReservation s rid = some r
        ∧ (r.status = .approved ∨ r.status = .confirmed)
        ∧ (¬ ∃ l ∈ s.loans, l.itemId = r.itemId ∧ l.returnAt = none)
        ∧ (∃ i ∈ s.items, i.iid = r.itemId ∧ i.status = .available)
        ∧ (¬ ∃ l ∈ s.loans, l.reservationId = some rid))
    ∧ (∀ r : Reservation, findReservation s rid = some r →
        (r.status = .approved ∨ r.status = .confirmed) →
        (∃ l ∈ s.loans, l.itemId = r.itemId ∧ l.returnAt = none) →
        fn_checkout_from_reservation actor rid now s = .error .itemCheckedOut)
    ∧ (∀ r : Reservation, findReservation s rid = some r →
        (r.status = .approved ∨ r.status = .confirmed) →
        (¬ ∃ l ∈ s.loans, l.itemId = r.itemId ∧ l.returnAt = none) →
        (¬ ∃ i ∈ s.items, i.iid = r.itemId ∧ i.status = .available) →
        fn_checkout_from_reservation actor rid now s = .error .itemUnavailable)
    ∧ (∀ r : Reservation, findReservation s rid = some r →
        ∀ p : ℕ × State, fn_checkout_from_reservation actor rid now s = .ok p →
        p.1 = s.nextLid
        ∧ p.2.loans = s.loans ++ [⟨s.nextLid, r.itemId, r.userId, some rid,
            now, now + 86400 * s.settings.defaultLoanDays.getD 7, none, false,
            none⟩]
        ∧ findReservation p.2 rid = some { r with status := .confirmed }
        ∧ (∀ i ∈ p.2.items, i.iid = r.itemId → i.status = .checkedOut))
    ∧ (AtMostOneOpen s →
        ∀ p : ℕ × State, fn_checkout_from_reservation actor rid now s = .ok p →
        AtMostOneOpen p.2) := by
  have fwd : (∃ p : ℕ × State,
      fn_checkout_from_reservation actor rid now s = .ok p) →
      ∃ r : Reservation, findReservation s rid = some r
        ∧ (r.status = .approved ∨ r.status = .confirmed)
        ∧ (¬ ∃ l ∈ s.loans, l.itemId = r.itemId ∧ l.returnAt = none)
        ∧ (∃ i ∈ s.items, i.iid = r.itemId ∧ i.status = .available)
        ∧ (¬ ∃ l ∈ s.loans, l.reservationId = some rid) := by
    rintro ⟨p, hp⟩
    cases hfr : findReservation s rid with
    | none =>
      rw [fn_checkout_notFound actor rid now s hfr] at hp
      exact absurd hp (by simp)
    | some r =>
      by_cases hst : r.status = .approved ∨ r.status = .confirmed
      · by_cases hopen : ∃ l ∈ s.loans, l.itemId = r.itemId ∧ l.returnAt = none
        · rw [fn_checkout_checkedOut actor rid now s r hfr hst hopen] at hp
          exact absurd hp (by simp)
        · by_cases havail : ∃ i ∈ s.items, i.iid = r.itemId ∧ i.status = .available
          · by_cases hres : ∃ l ∈ s.loans, l.reservationId = some rid
            · rw [fn_checkout_uniqueViolation actor rid now s r hfr hst hopen
                havail hres] at hp
              exact absurd hp (by simp)
            · exact ⟨r, rfl, hst, hopen, havail, hres⟩
          · rw [fn_checkout_unavailable actor rid now s r hfr hst hopen havail] at hp
            exact absurd hp (by simp)
      · rw [fn_checkout_badStatus actor rid now s r hfr hst] at hp
        exact absurd hp (by simp)
  refine ⟨⟨fwd, ?_⟩, ?_, ?_, ?_, ?_⟩
  · rintro ⟨r, hfr, hst, hopen, havail, hres⟩
    obtain ⟨s', hok, -, -, -, -⟩ := fn_checkout_run actor rid now s r hfr hst hopen
      havail hres (no_block_of_time s r.itemId now hopen htime)
    exact ⟨(s.nextLid, s'), hok⟩
  · intro r hfr hst hopen
    exact fn_checkout_checkedOut actor rid now s r hfr hst hopen
  · intro r hfr hst hopen hnavail
    exact fn_checkout_unavailable actor rid now s r hfr hst hopen hnavail
  · intro r hfr p hp
    obtain ⟨r', hfr', hst, hopen, havail, hres⟩ := fwd ⟨p, hp⟩
    rw [hfr] at hfr'
    cases hfr'
    obtain ⟨s', hok, hloans, hresv, hitems, -⟩ := fn_checkout_run actor rid now s r
      hfr hst hopen havail hres (no_block_of_time s r.itemId now hopen htime)
    rw [hok] at hp
    cases hp
    refine ⟨rfl, hloans, ?_, ?_⟩
    · unfold findReservation
      rw [hresv]
      have h2 := find?_res_map s.reservations rid r _
        (fun x => res_status_update_key x rid .confirmed) hfr
      rw [if_pos (rid_of_findReservation hfr)] at h2
      exact h2
    · intro i hmem hiq
      rw [hitems] at hmem
      obtain ⟨i0, _, rfl⟩ := List.mem_map.mp hmem
      by_cases h : i0.iid = r.itemId
      · simp [h]
      · rw [if_neg h] at hiq ⊢
        exact absurd hiq h
  · intro hone p hp
    obtain ⟨r, hfr, hst, hopen, havail, hres⟩ := fwd ⟨p, hp⟩
    obtain ⟨s', hok, hloans, -, -, -⟩ := fn_checkout_run actor rid now s r
      hfr hst hopen havail hres (no_block_of_time s r.itemId now hopen htime)
    rw [hok] at hp
    cases hp
    intro a ha b hb hab hao hbo
    rw [hloans] at ha hb
    rcases List.mem_append.mp ha with ha | ha <;>
      rcases List.mem_append.mp hb with hb | hb
    · exact hone a ha b hb hab hao hbo
    · rw [List.mem_singleton.mp hb]
      intro hitem
      exact hopen ⟨a, ha, hitem, hao⟩
    · rw [List.mem_singleton.mp ha]
      intro hitem
      exact hopen ⟨b, hb, hitem.symm, hbo⟩
    · rw [List.mem_singleton.mp ha, List.mem_singleton.mp hb] at hab
      exact absurd rfl hab

/-- Witness for the amended C6 at a concrete state (fixture `sFix3`,
one available item, an approved reservation added here). -/
theorem C6_checkout_contract_witness :
    ((∃ p : ℕ × State, fn_checkout_from_reservation 9 1 20
        ⟨[⟨1, 1, 5, ⟨0, 10⟩, .approved, some 9, none⟩], [], [⟨1, .available⟩],
          [], [], [], [], ⟨some 7, some 10⟩, 2, 1⟩ = .ok p)) := by
  have h := (C6_checkout_contract 9 1 20
      ⟨[⟨1, 1, 5, ⟨0, 10⟩, .approved, some 9, none⟩], [], [⟨1, .available⟩],
        [], [], [], [], ⟨some 7, some 10⟩, 2, 1⟩ (by decide)).1.mpr
  exact h ⟨⟨1, 1, 5, ⟨0, 10⟩, .approved, some 9, none⟩, rfl, Or.inl rfl,
    by decide, by decide, by decide⟩

end CELMS

namespace CELMS

/-! ### C10: checkout ignores the reservation's interval -/

/-- C10 counterexample — the claim's preconditions (status in
{approved, confirmed}, available asset, no open loan) hold, yet checkout
does not succeed: a returned loan already references the reservation and
the INSERT violates `uq_loans_reservation`. -/
theorem C10_counterexample_checkout_fails :
    (findReservation sFix5 1).map (fun r => r.status) = some .confirmed
    ∧ (¬ ∃ l ∈ sFix5.loans, l.itemId = 1 ∧ l.returnAt = none)
    ∧ (∃ i ∈ sFix5.items, i.iid = 1 ∧ i.status = .available)
    ∧ ¬ ∃ p : ℕ × State, fn_checkout_from_reservation 9 1 20 sFix5 = .ok p := by
  refine ⟨rfl, by decide, by decide, ?_⟩
  rintro ⟨p, hp⟩
  rw [show fn_checkout_from_reservation 9 1 20 sFix5 =
    .error .uniqueViolation from rfl] at hp
  exact absurd hp (by simp)

/-- C10 (amended) — CheckoutFromReservation never reads the reservation's
interval: under the claim's preconditions plus the amendment that no loan
row already references the reservation, checkout succeeds at EVERY current
time `now` — `now` and the reservation's period are unrelated hypotheses,
so the checkout may happen before the window starts or after it ends — and
the created loan has `checkout_at = now` and
`due_at = now + 86400 * default_loan_days` (default 7), independent of the
reservation's start and end. -/
theorem C10_checkout_ignores_interval (actor rid : ℕ) (s : State)
    (r : Reservation) (hr : findReservation s rid = some r)
    (hst : r.status = .approved ∨ r.status = .confirmed)
    (hnoopen : ¬ ∃ l ∈ s.loans, l.itemId = r.itemId ∧ l.returnAt = none)
    (havail : ∃ i ∈ s.items, i.iid = r.itemId ∧ i.status = .available)
    (hnores : ¬ ∃ l ∈ s.loans, l.reservationId = some rid)
    (now : ℤ)
    (htime : ∀ l ∈ s.loans, ∀ t : ℤ, l.returnAt = some t → t ≤ now) :
    ∃ s', fn_checkout_from_reservation actor rid now s = .ok (s.nextLid, s')
      ∧ s'.loans = s.loans ++ [⟨s.nextLid, r.itemId, r.userId, some rid, now,
          now + 86400 * s.settings.defaultLoanDays.getD 7, none, false,
          none⟩] := by
  obtain ⟨s', hok, hloans, -, -, -⟩ := fn_checkout_run actor rid now s r hr hst
    hnoopen havail hnores (no_block_of_time s r.itemId now hnoopen htime)
  exact ⟨s', hok, hloans⟩

/-- Witness for the amended C10: the reserved window is `[100, 200)` but
checkout succeeds at time 5, long before the window starts, with the due
date computed from 5. -/
theorem C10_checkout_ignores_interval_witness :
    ∃ s', fn_checkout_from_reservation 9 1 5
        ⟨[⟨1, 1, 5, ⟨100, 200⟩, .approved, some 9, none⟩], [],
          [⟨1, .available⟩], [], [], [], [], ⟨some 7, some 10⟩, 2, 1⟩ =
        .ok (1, s')
      ∧ s'.loans = [] ++ [⟨1, 1, 5, some 1, 5, 5 + 86400 * 7, none, false, none⟩] := by
  exact C10_checkout_ignores_interval 9 1
    ⟨[⟨1, 1, 5, ⟨100, 200⟩, .approved, some 9, none⟩], [], [⟨1, .available⟩],
      [], [], [], [], ⟨some 7, some 10⟩, 2, 1⟩
    ⟨1, 1, 5, ⟨100, 200⟩, .approved, some 9, none⟩ rfl (Or.inl rfl)
    (by decide) (by decide) (by decide) 5 (by decide)

end CELMS

namespace CELMS

/-! ### Inversion lemmas: what a successful operation did to the
reservations table -/

lemma request_inv {a i : ℕ} {lo hi : ℤ} {s : State} {p : ℕ × State}
    (h : fn_request_reservation a i lo hi s = .ok p) :
    p.2.reservations = s.reservations ++
      [⟨s.nextRid, i, a, ⟨lo, hi⟩, .pending, none, none⟩]
    ∧ p.2.nextRid = s.nextRid + 1 := by
  unfold fn_request_reservation at h
  by_cases hv : lo < hi
  · rw [if_pos hv] at h
    by_cases hexc : ∃ x ∈ s.reservations, x.itemId = i ∧ overlaps x.period ⟨lo, hi⟩
    · rw [if_pos hexc] at h
      exact absurd h (by simp)
    · rw [if_neg hexc] at h
      cases h
      exact ⟨rfl, rfl⟩
  · rw [if_neg hv] at h
    exact absurd h (by simp)

lemma approve_inv {approver rid : ℕ} {reason : Option String} {s s' : State}
    (h : fn_approve_reservation approver rid reason s = .ok s') :
    ∃ r : Reservation, findReservation s rid = some r
      ∧ (r.status = .pending ∨ r.status = .approved ∨ r.status = .confirmed)
      ∧ (¬ ∃ x ∈ s.reservations, x.rid ≠ rid ∧
          (x.status = .approved ∨ x.status = .confirmed) ∧
          x.itemId = r.itemId ∧ overlaps x.period r.period)
      ∧ s'.reservations = s.reservations.map (fun x =>
          if x.rid = rid then
            { x with status := .approved, decidedBy := some approver,
                     decisionReason := reason }
          else x)
      ∧ s'.nextRid = s.nextRid := by
  cases hfr : findReservation s rid with
  | none =>
    unfold fn_approve_reservation at h
    rw [hfr] at h
    exact absurd h (by simp)
  | some r =>
    cases hfi : findItem s r.itemId with
    | none =>
      unfold fn_approve_reservation at h
      rw [hfr] at h
      dsimp only at h
      rw [hfi] at h
      exact absurd h (by simp)
    | some it =>
      by_cases hst : r.status = .pending ∨ r.status = .approved ∨
          r.status = .confirmed
      · by_cases hov : ∃ x ∈ s.reservations, x.rid ≠ rid ∧
            (x.status = .approved ∨ x.status = .confirmed) ∧
            x.itemId = r.itemId ∧ overlaps x.period r.period
        · obtain ⟨x, hx, hxid, hxact, hxitem, hxov⟩ := hov
          rw [fn_approve_overlap approver rid reason s r it x hfr hfi hst hx
            hxid hxact hxitem hxov] at h
          exact absurd h (by simp)
        · rw [fn_approve_run approver rid reason s r it hfr hfi hst hov] at h
          cases h
          exact ⟨r, rfl, hst, hov, rfl, rfl⟩
      · unfold fn_approve_reservation at h
        rw [hfr] at h
        dsimp only at h
        rw [hfi] at h
        dsimp only at h
        rw [if_neg hst] at h
        exact absurd h (by simp)

end CELMS

namespace CELMS

lemma denyApi_inv {approver rid : ℕ} {reason : Option String} {s s' : State}
    (h : denyReservationApi approver rid reason s = .ok s') :
    ∃ t : String, s'.reservations = s.reservations.map (fun x =>
        if x.rid = rid then
          { x with status := .denied, decidedBy := some approver,
                   decisionReason := some t }
        else x)
      ∧ s'.nextRid = s.nextRid := by
  unfold denyReservationApi at h
  cases reason with
  | none => exact absurd h (by simp)
  | some t =>
    dsimp only at h
    by_cases ht : t = ""
    · rw [if_pos ht] at h
      exact absurd h (by simp)
    · rw [if_neg ht] at h
      refine ⟨t, ?_⟩
      cases hfr : findReservation s rid with
      | none =>
        unfold fn_deny_reservation at h
        rw [hfr] at h
        exact absurd h (by simp)
      | some r =>
        cases hfi : findItem s r.itemId with
        | none =>
          unfold fn_deny_reservation at h
          rw [hfr] at h
          dsimp only at h
          rw [hfi] at h
          exact absurd h (by simp)
        | some it =>
          rw [fn_deny_run approver rid (some t) s r it hfr hfi] at h
          cases h
          exact ⟨rfl, rfl⟩

lemma cancel_inv {actor rid : ℕ} {now : ℤ} {s s' : State}
    (h : fn_cancel_reservation actor rid now s = .ok s') :
    s'.reservations = s.reservations.map (fun x =>
      if x.rid = rid then { x with status := .cancelled } else x)
    ∧ s'.nextRid = s.nextRid := by
  cases hfr : findReservation s rid with
  | none =>
    unfold fn_cancel_reservation at h
    rw [hfr] at h
    exact absurd h (by simp)
  | some r =>
    by_cases howner : r.userId ≠ actor
    · unfold fn_cancel_reservation at h
      rw [hfr] at h
      dsimp only at h
      rw [if_pos howner] at h
      exact absurd h (by simp)
    · by_cases htime : r.period.lo ≤ now
      · unfold fn_cancel_reservation at h
        rw [hfr] at h
        dsimp only at h
        rw [if_neg howner, if_pos htime] at h
        exact absurd h (by simp)
      · rw [fn_cancel_run actor rid now s r hfr (not_not.mp howner)
          (not_le.mp htime)] at h
        cases h
        exact ⟨rfl, rfl⟩

lemma fn_checkout_exclusion (actor rid : ℕ) (now : ℤ) (s : State)
    (r : Reservation) (hr : findReservation s rid = some r)
    (hst : r.status = .approved ∨ r.status = .confirmed)
    (hnoopen : ¬ ∃ l ∈ s.loans, l.itemId = r.itemId ∧ l.returnAt = none)
    (havail : ∃ i ∈ s.items, i.iid = r.itemId ∧ i.status = .available)
    (hnores : ¬ ∃ l ∈ s.loans, l.reservationId = some rid)
    (hblock : ∃ l ∈ s.loans, l.itemId = r.itemId ∧ loanBlocksB now l = true) :
    fn_checkout_from_reservation actor rid now s = .error .exclusionViolation := by
  unfold fn_checkout_from_reservation
  rw [hr]
  dsimp only
  rw [if_pos hst, if_neg hnoopen, if_pos havail, if_neg hnores, if_pos hblock]

lemma checkoutRes_inv {actor rid : ℕ} {now : ℤ} {s : State} {p : ℕ × State}
    (h : fn_checkout_from_reservation actor rid now s = .ok p) :
    ∃ r : Reservation, findReservation s rid = some r
      ∧ (r.status = .approved ∨ r.status = .confirmed)
      ∧ p.2.reservations = s.reservations.map (fun x =>
          if x.rid = rid then { x with status := .confirmed } else x)
      ∧ p.2.nextRid = s.nextRid := by
  cases hfr : findReservation s rid with
  | none =>
    rw [fn_checkout_notFound actor rid now s hfr] at h
    exact absurd h (by simp)
  | some r =>
    by_cases hst : r.status = .approved ∨ r.status = .confirmed
    · by_cases hopen : ∃ l ∈ s.loans, l.itemId = r.itemId ∧ l.returnAt = none
      · rw [fn_checkout_checkedOut actor rid now s r hfr hst hopen] at h
        exact absurd h (by simp)
      · by_cases havail : ∃ i ∈ s.items, i.iid = r.itemId ∧ i.status = .available
        · by_cases hres : ∃ l ∈ s.loans, l.reservationId = some rid
          · rw [fn_checkout_uniqueViolation actor rid now s r hfr hst hopen
              havail hres] at h
            exact absurd h (by simp)
          · by_cases hblock : ∃ l ∈ s.loans, l.itemId = r.itemId ∧
                loanBlocksB now l = true
            · rw [fn_checkout_exclusion actor rid now s r hfr hst hopen havail
                hres hblock] at h
              exact absurd h (by simp)
            · obtain ⟨s2, hok, -, hresv, -, hnext⟩ := fn_checkout_run actor rid now s r
                hfr hst hopen havail hres hblock
              rw [hok] at h
              cases h
              exact ⟨r, rfl, hst, hresv, hnext⟩
        · rw [fn_checkout_unavailable actor rid now s r hfr hst hopen havail] at h
          exact absurd h (by simp)
    · rw [fn_checkout_badStatus actor rid now s r hfr hst] at h
      exact absurd h (by simp)

lemma adhoc_inv {actor user item : ℕ} {now : ℤ} {s : State} {p : ℕ × State}
    (h : fn_checkout_adhoc actor user item now s = .ok p) :
    p.2.reservations = s.reservations ∧ p.2.nextRid = s.nextRid := by
  unfold fn_checkout_adhoc at h
  by_cases hopen : ∃ l ∈ s.loans, l.itemId = item ∧ l.returnAt = none
  · rw [if_pos hopen] at h
    exact absurd h (by simp)
  · rw [if_neg hopen] at h
    by_cases havail : ∃ i ∈ s.items, i.iid = item ∧ i.status = .available
    · rw [if_pos havail] at h
      by_cases hblock : ∃ l ∈ s.loans, l.itemId = item ∧ loanBlocksB now l = true
      · rw [if_pos hblock] at h
        exact absurd h (by simp)
      · rw [if_neg hblock] at h
        cases h
        exact ⟨rfl, rfl⟩
    · rw [if_neg havail] at h
      exact absurd h (by simp)

lemma return_inv {actor lid : ℕ} {damaged : Bool} {condition : Option String}
    {now : ℤ} {s s' : State}
    (h : fn_return_loan actor lid damaged condition now s = .ok s') :
    s'.reservations = s.reservations ∧ s'.nextRid = s.nextRid := by
  cases hfl : findLoan s lid with
  | none =>
    unfold fn_return_loan at h
    rw [hfl] at h
    exact absurd h (by simp)
  | some l =>
    cases hfi : findItem s l.itemId with
    | none =>
      unfold fn_return_loan at h
      rw [hfl] at h
      dsimp only at h
      rw [hfi] at h
      exact absurd h (by simp)
    | some it =>
      cases hra : l.returnAt with
      | some t =>
        unfold fn_return_loan at h
        rw [hfl] at h
        dsimp only at h
        rw [hfi] at h
        dsimp only at h
        rw [hra] at h
        exact absurd h (by simp)
      | none =>
        obtain ⟨s2, hok, -, -, hresv, hnext⟩ :=
          fn_return_run actor lid damaged condition now s l it hfl hfi hra
        rw [hok] at h
        cases h
        exact ⟨hresv, hnext⟩

end CELMS

namespace CELMS

/-! ### Double-booking invariant machinery -/

lemma overlaps_comm {a b : Interval} (h : overlaps a b) : overlaps b a :=
  ⟨h.2.1, h.1, h.2.2.2, h.2.2.1⟩

/-- With pairwise-distinct reservation ids, any member carrying the looked-up
id is the `find?` result. -/
lemma mem_eq_of_nodup_find? {l : List Reservation} {rid : ℕ} {r x : Reservation}
    (hfind : l.find? (fun y => decide (y.rid = rid)) = some r)
    (hnd : (l.map (fun y => y.rid)).Nodup)
    (hx : x ∈ l) (hxr : x.rid = rid) : x = r := by
  induction l with
  | nil => cases hx
  | cons a t ih =>
    rw [List.map_cons, List.nodup_cons] at hnd
    by_cases ha : a.rid = rid
    · rw [List.find?_cons_of_pos _ (by simpa using ha)] at hfind
      cases hfind
      cases List.mem_cons.mp hx with
      | inl h => exact h
      | inr h =>
        exact absurd (List.mem_map.mpr ⟨x, h, hxr.trans ha.symm⟩) hnd.1
    · rw [List.find?_cons_of_neg _ (by simpa using ha)] at hfind
      cases List.mem_cons.mp hx with
      | inl h => exact absurd (h ▸ hxr) ha
      | inr h => exact ih hfind hnd.2 h

/-- A field-preserving, activity-non-increasing map preserves the
no-double-booking property. -/
lemma noDouble_map (l : List Reservation) (f : Reservation → Reservation)
    (hrid : ∀ x, (f x).rid = x.rid) (hitem : ∀ x, (f x).itemId = x.itemId)
    (hper : ∀ x, (f x).period = x.period)
    (hact : ∀ x ∈ l, ResActive (f x) → ResActive x)
    (h : NoDoubleBooking l) : NoDoubleBooking (l.map f) := by
  intro a ha b hb hab haact hbact hitemeq
  obtain ⟨a0, ha0, rfl⟩ := List.mem_map.mp ha
  obtain ⟨b0, hb0, rfl⟩ := List.mem_map.mp hb
  rw [hrid a0, hrid b0] at hab
  rw [hitem a0, hitem b0] at hitemeq
  rw [hper a0, hper b0]
  exact h a0 ha0 b0 hb0 hab (hact a0 ha0 haact) (hact b0 hb0 hbact) hitemeq

/-- Appending an inactive reservation preserves no-double-booking. -/
lemma noDouble_append (l : List Reservation) (r : Reservation)
    (hr : ¬ ResActive r) (h : NoDoubleBooking l) :
    NoDoubleBooking (l ++ [r]) := by
  intro a ha b hb hab haact hbact hit
  rcases List.mem_append.mp ha with ha' | ha' <;>
    rcases List.mem_append.mp hb with hb' | hb'
  · exact h a ha' b hb' hab haact hbact hit
  · rw [List.mem_singleton.mp hb'] at hbact
    exact absurd hbact hr
  · rw [List.mem_singleton.mp ha'] at haact
    exact absurd haact hr
  · rw [List.mem_singleton.mp ha', List.mem_singleton.mp hb'] at hab
    exact absurd rfl hab

/-- The approval update preserves no-double-booking thanks to the overlap
guard checked by `fn_approve_reservation`. -/
lemma noDouble_approve (l : List Reservation) (rid approver : ℕ)
    (reason : Option String) (r : Reservation)
    (hfind : l.find? (fun y => decide (y.rid = rid)) = some r)
    (hnd : (l.map (fun y => y.rid)).Nodup)
    (hno : ¬ ∃ x ∈ l, x.rid ≠ rid ∧
      (x.status = .approved ∨ x.status = .confirmed) ∧
      x.itemId = r.itemId ∧ overlaps x.period r.period)
    (h : NoDoubleBooking l) :
    NoDoubleBooking (l.map (fun x =>
      if x.rid = rid then
        { x with status := .approved, decidedBy := some approver,
                 decisionReason := reason }
      else x)) := by
  intro a ha b hb hab haact hbact hitemeq
  obtain ⟨a0, ha0, rfl⟩ := List.mem_map.mp ha
  obtain ⟨b0, hb0, rfl⟩ := List.mem_map.mp hb
  have hab0 : a0.rid ≠ b0.rid := by
    rw [res_full_update_key a0 rid .approved (some approver) reason,
      res_full_update_key b0 rid .approved (some approver) reason] at hab
    exact hab
  by_cases hda : a0.rid = rid <;> by_cases hdb : b0.rid = rid
  · exact absurd (hda.trans hdb.symm) hab0
  · have ha0r : a0 = r := mem_eq_of_nodup_find? hfind hnd ha0 hda
    subst ha0r
    rw [if_pos hda] at hitemeq ⊢
    rw [if_neg hdb] at hbact hitemeq ⊢
    intro hov
    exact hno ⟨b0, hb0, hdb, hbact, hitemeq.symm, overlaps_comm hov⟩
  · have hb0r : b0 = r := mem_eq_of_nodup_find? hfind hnd hb0 hdb
    subst hb0r
    rw [if_pos hdb] at hitemeq ⊢
    rw [if_neg hda] at haact hitemeq ⊢
    intro hov
    exact hno ⟨a0, ha0, hda, haact, hitemeq, hov⟩
  · rw [if_neg hda] at haact hitemeq ⊢
    rw [if_neg hdb] at hbact hitemeq ⊢
    exact h a0 ha0 b0 hb0 hab0 haact hbact hitemeq

/-- An rid-preserving map keeps the reservation-id list unchanged. -/
lemma rid_map_eq (l : List Reservation) (f : Reservation → Reservation)
    (hrid : ∀ x, (f x).rid = x.rid) :
    (l.map f).map (fun y => y.rid) = l.map (fun y => y.rid) := by
  rw [List.map_map]
  exact List.map_congr_left (fun x _ => hrid x)

end CELMS

namespace CELMS

lemma bound_map (l : List Reservation) (f : Reservation → Reservation)
    (hrid : ∀ x, (f x).rid = x.rid) (n : ℕ) (h : ∀ r ∈ l, r.rid < n) :
    ∀ r ∈ l.map f, r.rid < n := by
  intro r hr
  obtain ⟨x, hx, rfl⟩ := List.mem_map.mp hr
  rw [hrid x]
  exact h x hx

/-- Every lifecycle operation, run as a transaction, preserves
well-formedness — in particular the no-double-booking invariant. -/
lemma wf_applyOp (o : Op) (s : State) (h : WF s) : WF (applyOp o s) := by
  obtain ⟨hbound, hnd, hdb⟩ := h
  cases o with
  | request a i lo hi =>
    unfold applyOp
    dsimp only
    cases hres : fn_request_reservation a i lo hi s with
    | error e => exact ⟨hbound, hnd, hdb⟩
    | ok p =>
      dsimp only
      obtain ⟨hresv, hnext⟩ := request_inv hres
      refine ⟨?_, ?_, ?_⟩
      · intro r hr
        rw [hresv] at hr
        rw [hnext]
        rcases List.mem_append.mp hr with h' | h'
        · exact lt_trans (hbound r h') (Nat.lt_succ_self _)
        · rw [List.mem_singleton.mp h']
          exact Nat.lt_succ_self _
      · rw [hresv, List.map_append]
        rw [List.nodup_append]
        refine ⟨hnd, List.nodup_singleton _, ?_⟩
        intro n hn hn2
        simp only [List.map_cons, List.map_nil, List.mem_singleton] at hn2
        obtain ⟨x, hx, hxr⟩ := List.mem_map.mp hn
        rw [hn2] at hxr
        exact absurd hxr (Nat.ne_of_lt (hbound x hx))
      · rw [hresv]
        refine noDouble_append _ _ ?_ hdb
        rintro (h' | h') <;> exact absurd h' (by simp)
  | approve a rid reason =>
    unfold applyOp
    dsimp only
    cases hres : fn_approve_reservation a rid reason s with
    | error e => exact ⟨hbound, hnd, hdb⟩
    | ok s2 =>
      dsimp only
      obtain ⟨r, hfr, hst, hno, hresv, hnext⟩ := approve_inv hres
      refine ⟨?_, ?_, ?_⟩
      · rw [hresv, hnext]
        exact bound_map _ _
          (fun x => res_full_update_key x rid .approved (some a) reason) _ hbound
      · rw [hresv, rid_map_eq _ _
          (fun x => res_full_update_key x rid .approved (some a) reason)]
        exact hnd
      · rw [hresv]
        exact noDouble_approve _ rid a reason r hfr hnd hno hdb
  | deny a rid reason =>
    unfold applyOp
    dsimp only
    cases hres : denyReservationApi a rid reason s with
    | error e => exact ⟨hbound, hnd, hdb⟩
    | ok s2 =>
      dsimp only
      obtain ⟨t, hresv, hnext⟩ := denyApi_inv hres
      refine ⟨?_, ?_, ?_⟩
      · rw [hresv, hnext]
        exact bound_map _ _
          (fun x => res_full_update_key x rid .denied (some a) (some t)) _ hbound
      · rw [hresv, rid_map_eq _ _
          (fun x => res_full_update_key x rid .denied (some a) (some t))]
        exact hnd
      · rw [hresv]
        refine noDouble_map _ _
          (fun x => res_full_update_key x rid .denied (some a) (some t))
          (fun x => by by_cases hx : x.rid = rid <;> simp [hx])
          (fun x => by by_cases hx : x.rid = rid <;> simp [hx])
          ?_ hdb
        intro x _ hact
        by_cases hx : x.rid = rid
        · rw [if_pos hx] at hact
          rcases hact with h' | h' <;> exact absurd h' (by simp)
        · rw [if_neg hx] at hact
          exact hact
  | cancel a rid now =>
    unfold applyOp
    dsimp only
    cases hres : fn_cancel_reservation a rid now s with
    | error e => exact ⟨hbound, hnd, hdb⟩
    | ok s2 =>
      dsimp only
      obtain ⟨hresv, hnext⟩ := cancel_inv hres
      refine ⟨?_, ?_, ?_⟩
      · rw [hresv, hnext]
        exact bound_map _ _
          (fun x => res_status_update_key x rid .cancelled) _ hbound
      · rw [hresv, rid_map_eq _ _
          (fun x => res_status_update_key x rid .cancelled)]
        exact hnd
      · rw [hresv]
        refine noDouble_map _ _
          (fun x => res_status_update_key x rid .cancelled)
          (fun x => by by_cases hx : x.rid = rid <;> simp [hx])
          (fun x => by by_cases hx : x.rid = rid <;> simp [hx])
          ?_ hdb
        intro x _ hact
        by_cases hx : x.rid = rid
        · rw [if_pos hx] at hact
          rcases hact with h' | h' <;> exact absurd h' (by simp)
        · rw [if_neg hx] at hact
          exact hact
  | checkoutRes a rid now =>
    unfold applyOp
    dsimp only
    cases hres : fn_checkout_from_reservation a rid now s with
    | error e => exact ⟨hbound, hnd, hdb⟩
    | ok p =>
      dsimp only
      obtain ⟨r, hfr, hst, hresv, hnext⟩ := checkoutRes_inv hres
      refine ⟨?_, ?_, ?_⟩
      · rw [hresv, hnext]
        exact bound_map _ _
          (fun x => res_status_update_key x rid .confirmed) _ hbound
      · rw [hresv, rid_map_eq _ _
          (fun x => res_status_update_key x rid .confirmed)]
        exact hnd
      · rw [hresv]
        refine noDouble_map _ _
          (fun x => res_status_update_key x rid .confirmed)
          (fun x => by by_cases hx : x.rid = rid <;> simp [hx])
          (fun x => by by_cases hx : x.rid = rid <;> simp [hx])
          ?_ hdb
        intro x hx hact
        by_cases hxr : x.rid = rid
        · have hxe : x = r := mem_eq_of_nodup_find? hfr hnd hx hxr
          rw [hxe]
          exact hst
        · rw [if_neg hxr] at hact
          exact hact
  | checkoutAdhocOp a u i now =>
    unfold applyOp
    dsimp only
    cases hres : fn_checkout_adhoc a u i now s with
    | error e => exact ⟨hbound, hnd, hdb⟩
    | ok p =>
      dsimp only
      obtain ⟨hresv, hnext⟩ := adhoc_inv hres
      rw [WF, hresv, hnext]
      exact ⟨hbound, hnd, hdb⟩
  | returnLoanOp a l d c now =>
    unfold applyOp
    dsimp only
    cases hres : fn_return_loan a l d c now s with
    | error e => exact ⟨hbound, hnd, hdb⟩
    | ok s2 =>
      dsimp only
      obtain ⟨hresv, hnext⟩ := return_inv hres
      rw [WF, hresv, hnext]
      exact ⟨hbound, hnd, hdb⟩
  | expire now =>
    unfold applyOp
    dsimp only
    rw [expire_state]
    refine ⟨?_, ?_, ?_⟩
    · exact bound_map _ _
        (fun x => by by_cases hx : staleB now x = true <;> simp [hx]) _ hbound
    · rw [rid_map_eq _ _
        (fun x => by by_cases hx : staleB now x = true <;> simp [hx])]
      exact hnd
    · refine noDouble_map _ _
        (fun x => by by_cases hx : staleB now x = true <;> simp [hx])
        (fun x => by by_cases hx : staleB now x = true <;> simp [hx])
        (fun x => by by_cases hx : staleB now x = true <;> simp [hx])
        ?_ hdb
      intro x _ hact
      by_cases hx : staleB now x = true
      · rw [if_pos hx] at hact
        rcases hact with h' | h' <;> exact absurd h' (by simp)
      · rw [if_neg hx] at hact
        exact hact

/-- Along any reachable trace from a well-formed start, well-formedness is
an invariant. -/
lemma wf_reachable {s0 s : State} (h0 : WF s0) (h : ReachableFrom s0 s) :
    WF s := by
  induction h with
  | refl => exact h0
  | step o hr ih => exact wf_applyOp o _ ih

end CELMS

namespace CELMS

instance (l : List Reservation) : Decidable (NoDoubleBooking l) := by
  unfold NoDoubleBooking
  infer_instance

instance (s : State) : Decidable (WF s) := by
  unfold WF
  infer_instance

/-- A fixture: a pending and an approved reservation with overlapping
periods on the same item (such a pair can no longer arise through the
operations, but the approval guard must still reject it). -/
def sFix6 : State :=
  ⟨[⟨1, 1, 5, ⟨0, 10⟩, .pending, none, none⟩,
    ⟨2, 1, 6, ⟨5, 15⟩, .approved, some 9, none⟩], [],
    [⟨1, .available⟩], [], [], [], [], ⟨some 7, some 10⟩, 3, 1⟩

/-- C1 — No double-booking: when some OTHER approved/confirmed reservation
on the same item overlaps the target's period, ApproveReservation fails
with the overlap error and, run as a transaction, performs no mutation;
every operation preserves well-formedness (id bounds, id distinctness, and
pairwise-disjoint periods among approved/confirmed reservations of one
item); hence every state reachable from a well-formed state satisfies the
no-double-booking invariant. -/
theorem C1_no_double_booking :
    (∀ approver rid : ℕ, ∀ reason : Option String, ∀ s : State,
      ∀ r : Reservation, ∀ it : Item, ∀ x : Reservation,
      findReservation s rid = some r → findItem s r.itemId = some it →
      (r.status = .pending ∨ r.status = .approved ∨ r.status = .confirmed) →
      x ∈ s.reservations → x.rid ≠ rid →
      (x.status = .approved ∨ x.status = .confirmed) →
      x.itemId = r.itemId → overlaps x.period r.period →
      fn_approve_reservation approver rid reason s = .error .overlap
        ∧ applyOp (.approve approver rid reason) s = s)
    ∧ (∀ o : Op, ∀ s : State, WF s → WF (applyOp o s))
    ∧ (∀ s0 s : State, WF s0 → ReachableFrom s0 s →
        NoDoubleBooking s.reservations) := by
  refine ⟨?_, fun o s h => wf_applyOp o s h,
    fun s0 s h0 hr => (wf_reachable h0 hr).2.2⟩
  intro approver rid reason s r it x hr hi hst hx hxid hxact hxitem hxov
  have herr := fn_approve_overlap approver rid reason s r it x hr hi hst hx
    hxid hxact hxitem hxov
  refine ⟨herr, ?_⟩
  unfold applyOp
  dsimp only
  rw [herr]

/-- Witness for C1 at concrete states. -/
theorem C1_no_double_booking_witness :
    (fn_approve_reservation 9 1 none sFix6 = .error .overlap
      ∧ applyOp (.approve 9 1 none) sFix6 = sFix6)
    ∧ WF (applyOp (.request 5 1 0 10) sFix3)
    ∧ NoDoubleBooking sFix3.reservations := by
  refine ⟨?_, ?_, ?_⟩
  · exact C1_no_double_booking.1 9 1 none sFix6
      ⟨1, 1, 5, ⟨0, 10⟩, .pending, none, none⟩ ⟨1, .available⟩
      ⟨2, 1, 6, ⟨5, 15⟩, .approved, some 9, none⟩
      rfl rfl (Or.inl rfl) (by decide) (by decide) (Or.inl rfl) rfl (by decide)
  · exact C1_no_double_booking.2.1 (.request 5 1 0 10) sFix3 (by decide)
  · exact C1_no_double_booking.2.2 sFix3 sFix3 (by decide) .refl

end CELMS
